import Mathlib

/-!
# Verification of the piece-tree text buffer (kebaren/buffer)

A shallow embedding of the C++ piece-tree text buffer into Lean 4.

Byte strings are modelled as `List Char` (every input exercised here is
ASCII, and the C++ code treats `std::string` as a byte sequence).
`int32_t` is modelled as `Int` (no quantity in the executions proved about
comes anywhere near 2^31, so wrap-around is irrelevant).

The red-black tree with parent pointers is modelled as an arena:
`TreeNode`s live in an `Array`, node references are array indices, and
index `0` plays the role of the shared `SENTINEL` node (whose fields are
mutated by `transplant` exactly as in the C++ code).  Heap allocation of
`Piece` objects is modelled by an allocation counter: a piece gets a fresh
identity when it is planted in (or swapped into) a tree node, and
`delete piece` records the identity in a freed set.  This is what lets the
snapshot claims talk about dangling `Piece*` pointers.

Every definition mirrors the member functions of `PieceTreeBase`
(`src/piece_tree_base.cpp`): the class has private member overloads of
`fixInsert`, `rotateLeft`, `rotateRight`, `rbDelete`, `updateTreeMetadata`
etc., and unqualified calls inside the class resolve to those members, so
the free functions of `rb_tree_base.cpp` are dead code for `PieceTreeBase`
and are not embedded.  Loops are given explicit fuel; all concrete
executions stay far below the supplied fuel.
-/

namespace PieceTree

/-- Byte strings (`std::string`), as lists of characters. -/
abbrev Str := List Char

/-- Shorthand turning a Lean string literal into a `Str`. -/
def str (s : String) : Str := s.data

/-- `std::string::substr(pos, count)`.  For `0 ≤ pos ≤ length` this is
`take count (drop pos)`; a negative `count` converts to a huge `size_t`
and yields the whole tail; a `pos` outside the string yields `""`
(the C++ call would throw). -/
def csubstr (s : Str) (pos count : Int) : Str :=
  if pos < 0 then []
  else if count < 0 then s.drop pos.toNat
  else (s.drop pos.toNat).take count.toNat

/-- `s[i]` on a byte string; out-of-range reads give NUL (the concrete
executions below never read out of range). -/
def chAt (s : Str) (i : Int) : Char :=
  if 0 ≤ i then s.getD i.toNat (Char.ofNat 0) else Char.ofNat 0

/-- `v[i]` on a `std::vector<int32_t>`; out-of-range gives 0 (the concrete
executions below never read out of range). -/
def getI (l : List Int) (i : Int) : Int :=
  if 0 ≤ i then l.getD i.toNat 0 else 0

/-- `v.back()` on a `std::vector<int32_t>`. -/
def backI (l : List Int) : Int := l.getLastD 0

/-- The scanning loop of `createLineStartsFast` (line_starts.cpp /
piece_tree_builder.cpp, both define the same algorithm): emit `i+2` after
a CRLF, `i+1` after a lone CR or a lone LF. -/
def lineStartsFastAux : Str → Int → List Int
  | [], _ => []
  | '\r' :: '\n' :: rest, i => (i + 2) :: lineStartsFastAux rest (i + 2)
  | '\r' :: rest, i => (i + 1) :: lineStartsFastAux rest (i + 1)
  | '\n' :: rest, i => (i + 1) :: lineStartsFastAux rest (i + 1)
  | _ :: rest, i => lineStartsFastAux rest (i + 1)

/-- `createLineStartsFast`: `[0]` followed by the offset one past every
line terminator (CRLF counted once). -/
def createLineStartsFast (s : Str) : List Int :=
  0 :: lineStartsFastAux s 0

/-- The CR/LF/CRLF census of `createLineStarts`
(piece_tree_builder.cpp): terminator counts tallied in one pass. -/
def lineStartsCensus : Str → Nat × Nat × Nat
  | [] => (0, 0, 0)
  | '\r' :: '\n' :: rest =>
      let (cr, lf, crlf) := lineStartsCensus rest
      (cr, lf, crlf + 1)
  | '\r' :: rest =>
      let (cr, lf, crlf) := lineStartsCensus rest
      (cr + 1, lf, crlf)
  | '\n' :: rest =>
      let (cr, lf, crlf) := lineStartsCensus rest
      (cr, lf + 1, crlf)
  | _ :: rest => lineStartsCensus rest

/-- Buffer cursor: zero-based line index into the owning buffer's
line-start table plus byte column within that line. -/
structure BufferCursor where
  line : Int
  column : Int
deriving DecidableEq, Repr

/-- A piece: slice descriptor into one buffer (the C++ field `end` is
named `endPos` here because `end` is a Lean keyword). -/
structure Piece where
  bufferIndex : Int
  start : BufferCursor
  endPos : BufferCursor
  lineFeedCnt : Int
  length : Int
deriving DecidableEq, Repr

/-- Red-black node color. -/
inductive NodeColor where
  | Black
  | Red
deriving DecidableEq, Repr

/-- A tree node in the arena.  `parent`, `left`, `right` are arena
indices; index 0 is the sentinel.  `pieceId` models the heap identity of
the `Piece*` the node currently owns. -/
structure TreeNode where
  parent : Nat
  left : Nat
  right : Nat
  color : NodeColor
  piece : Piece
  pieceId : Nat
  size_left : Int
  lf_left : Int
deriving DecidableEq, Repr

/-- `StringBuffer`: bytes plus the line-start table. -/
structure StringBuffer where
  buffer : Str
  lineStarts : List Int
deriving DecidableEq, Repr

/-- A search-cache entry `(node, nodeStartOffset, nodeStartLineNumber)`. -/
structure CacheEntry where
  node : Nat
  nodeStartOffset : Int
  nodeStartLineNumber : Int
deriving DecidableEq, Repr

/-- The whole `PieceTreeBase` state.  `freedPieces` records the ids of
`Piece` objects that the code has `delete`d (pieces are given a fresh id
whenever they are planted into or swapped into a node). -/
structure PT where
  nodes : Array TreeNode
  root : Nat
  buffers : Array StringBuffer
  lineCnt : Int
  length : Int
  eol : Str
  eolLength : Int
  eolNormalized : Bool
  lastChangeBufferPos : BufferCursor
  cache : List CacheEntry
  cacheLimit : Nat
  lastVisitedLine : Int × Str
  nextPieceId : Nat
  freedPieces : List Nat
deriving Repr

/-- The dummy piece stored in the sentinel slot (never read via a guarded
path). -/
def dummyPiece : Piece := ⟨0, ⟨0, 0⟩, ⟨0, 0⟩, 0, 0⟩

/-- The sentinel node (arena index 0): black, self-referential. -/
def sentinelNode : TreeNode :=
  ⟨0, 0, 0, NodeColor.Black, dummyPiece, 0, 0, 0⟩

/-- Read a node from the arena. -/
def nd (st : PT) (i : Nat) : TreeNode := st.nodes.getD i sentinelNode

/-- Write a node back to the arena. -/
def setN (st : PT) (i : Nat) (v : TreeNode) : PT :=
  { st with nodes := st.nodes.setD i v }

/-- Update one node through a function. -/
def modN (st : PT) (i : Nat) (f : TreeNode → TreeNode) : PT :=
  setN st i (f (nd st i))

/-- Read a buffer. -/
def buf (st : PT) (i : Int) : StringBuffer :=
  if 0 ≤ i then st.buffers.getD i.toNat ⟨[], [0]⟩ else ⟨[], [0]⟩

/-- Replace a buffer. -/
def setBuf (st : PT) (i : Int) (v : StringBuffer) : PT :=
  if 0 ≤ i then { st with buffers := st.buffers.setD i.toNat v } else st

/-- Generic fuel for loops over the arena: no concrete execution below
ever comes near this bound. -/
def FUEL (st : PT) : Nat := st.nodes.size + 64

/-- `leftest`: follow `left` until the sentinel. -/
def leftest (st : PT) : Nat → Nat → Nat
  | 0, _ => 0
  | _ + 1, 0 => 0
  | fuel + 1, i => if (nd st i).left = 0 then i else leftest st fuel (nd st i).left

/-- `rightest`: follow `right` until the sentinel. -/
def rightest (st : PT) : Nat → Nat → Nat
  | 0, _ => 0
  | _ + 1, 0 => 0
  | fuel + 1, i => if (nd st i).right = 0 then i else rightest st fuel (nd st i).right

/-- `minimum` (identical loop to `leftest`, including on the sentinel,
whose `left` is itself). -/
def minimum (st : PT) (i : Nat) : Nat := leftest st (FUEL st) i

/-- The upward walk of `TreeNode::next`: climb while we are our parent's
right child. -/
def nextUp (st : PT) : Nat → Nat → Nat
  | 0, i => i
  | fuel + 1, i =>
      if (nd st i).parent ≠ 0 then
        if (nd st (nd st i).parent).left = i then i
        else nextUp st fuel (nd st i).parent
      else i

/-- `TreeNode::next`: in-order successor. -/
def nextNode (st : PT) (i : Nat) : Nat :=
  if (nd st i).right ≠ 0 then leftest st (FUEL st) (nd st i).right
  else
    let j := nextUp st (FUEL st) i
    if (nd st j).parent = 0 then 0 else (nd st j).parent

/-- The upward walk of `TreeNode::prev`: climb while we are our parent's
left child. -/
def prevUp (st : PT) : Nat → Nat → Nat
  | 0, i => i
  | fuel + 1, i =>
      if (nd st i).parent ≠ 0 then
        if (nd st (nd st i).parent).right = i then i
        else prevUp st fuel (nd st i).parent
      else i

/-- `TreeNode::prev`: in-order predecessor. -/
def prevNode (st : PT) (i : Nat) : Nat :=
  if (nd st i).left ≠ 0 then rightest st (FUEL st) (nd st i).left
  else
    let j := prevUp st (FUEL st) i
    if (nd st j).parent = 0 then 0 else (nd st j).parent

/-- `offsetInBuffer`: absolute byte offset of a cursor in its buffer. -/
def offsetInBuffer (st : PT) (bufferIndex : Int) (cursor : BufferCursor) : Int :=
  getI (buf st bufferIndex).lineStarts cursor.line + cursor.column

/-- The binary-search loop of `positionInBuffer`.  Arguments mirror the
C++ locals `low`, `high`, `mid`, `midStart`. -/
def positionInBufferLoop (lineStarts : List Int) (offset : Int) :
    Nat → Int → Int → Int → Int → Int × Int
  | 0, _, _, mid, midStart => (mid, midStart)
  | fuel + 1, low, high, mid, midStart =>
      if low ≤ high then
        let mid := low + (high - low) / 2
        let midStart := getI lineStarts mid
        if mid = high then (mid, midStart)
        else
          let midStop := getI lineStarts (mid + 1)
          if offset < midStart then
            positionInBufferLoop lineStarts offset fuel low (mid - 1) mid midStart
          else if offset ≥ midStop then
            positionInBufferLoop lineStarts offset fuel (mid + 1) high mid midStart
          else (mid, midStart)
      else (mid, midStart)

/-- `positionInBuffer`: map a piece-local remainder to a buffer cursor by
binary search over the buffer's line starts restricted to the piece. -/
def positionInBuffer (st : PT) (i : Nat) (remainder : Int) : BufferCursor :=
  let piece := (nd st i).piece
  let lineStarts := (buf st piece.bufferIndex).lineStarts
  let startOffset := getI lineStarts piece.start.line + piece.start.column
  let offset := startOffset + remainder
  let (mid, midStart) :=
    positionInBufferLoop lineStarts offset (lineStarts.length + 2)
      piece.start.line piece.endPos.line 0 0
  ⟨mid, offset - midStart⟩

/-- `getLineFeedCnt`: line feeds wholly inside `[start, end)` of a buffer,
with the CR-before-end adjustment. -/
def getLineFeedCnt (st : PT) (bufferIndex : Int) (start endPos : BufferCursor) : Int :=
  if endPos.column = 0 then endPos.line - start.line
  else
    let lineStarts := (buf st bufferIndex).lineStarts
    if endPos.line = (lineStarts.length : Int) - 1 then endPos.line - start.line
    else
      let nextLineStartOffset := getI lineStarts (endPos.line + 1)
      let endOffset := getI lineStarts endPos.line + endPos.column
      if nextLineStartOffset > endOffset + 1 then endPos.line - start.line
      else
        let previousCharOffset := endOffset - 1
        let buffer := (buf st bufferIndex).buffer
        if chAt buffer previousCharOffset = '\r' then endPos.line - start.line + 1
        else endPos.line - start.line

/-- `getAccumulatedValue`: byte offset within the piece of the first byte
after its `index`-th line terminator. -/
def getAccumulatedValue (st : PT) (i : Nat) (index : Int) : Int :=
  if index < 0 then 0
  else
    let piece := (nd st i).piece
    let lineStarts := (buf st piece.bufferIndex).lineStarts
    let expectedLineStartIndex := piece.start.line + index + 1
    if expectedLineStartIndex > piece.endPos.line then
      getI lineStarts piece.endPos.line + piece.endPos.column -
        getI lineStarts piece.start.line - piece.start.column
    else
      getI lineStarts expectedLineStartIndex -
        getI lineStarts piece.start.line - piece.start.column

/-- `getIndexOf`: `(line, column)` of an accumulated value within a
piece. -/
def getIndexOf (st : PT) (i : Nat) (accumulatedValue : Int) : Int × Int :=
  let piece := (nd st i).piece
  let pos := positionInBuffer st i accumulatedValue
  let lineCnt := pos.line - piece.start.line
  if offsetInBuffer st piece.bufferIndex piece.endPos -
      offsetInBuffer st piece.bufferIndex piece.start = accumulatedValue then
    let realLineCnt := getLineFeedCnt st piece.bufferIndex piece.start pos
    if realLineCnt ≠ lineCnt then (realLineCnt, 0) else (lineCnt, pos.column)
  else (lineCnt, pos.column)

/-- The upward walk of the member `updateTreeMetadata`: the deltas are
added to `x` itself and to every ancestor, unconditionally. -/
def updateTreeMetadatawalk (deltaLen deltaLf : Int) : Nat → PT → Nat → PT
  | 0, st, _ => st
  | fuel + 1, st, i =>
      if i ≠ 0 then
        let st := modN st i fun n =>
          { n with size_left := n.size_left + deltaLen, lf_left := n.lf_left + deltaLf }
        updateTreeMetadatawalk deltaLen deltaLf fuel st (nd st i).parent
      else st

/-- Member `PieceTreeBase::updateTreeMetadata` (piece_tree_base.cpp:2035). -/
def updateTreeMetadata (st : PT) (x : Nat) (lengthDeltaLeft lfDeltaLeft : Int) : PT :=
  if x = 0 then st
  else if lengthDeltaLeft ≠ 0 ∨ lfDeltaLeft ≠ 0 then
    updateTreeMetadatawalk lengthDeltaLeft lfDeltaLeft (FUEL st) st x
  else st

/-- Member `PieceTreeBase::rotateLeft` (piece_tree_base.cpp:1907),
including its metadata update. -/
def rotateLeft (st : PT) (x : Nat) : PT :=
  let y := (nd st x).right
  let yLeft := (nd st y).left
  let st := modN st x fun n => { n with right := yLeft }
  let st := if yLeft ≠ 0 then modN st yLeft (fun n => { n with parent := x }) else st
  let xParent := (nd st x).parent
  let st := modN st y fun n => { n with parent := xParent }
  let st :=
    if xParent = 0 then { st with root := y }
    else if (nd st xParent).left = x then modN st xParent fun n => { n with left := y }
    else modN st xParent fun n => { n with right := y }
  let st := modN st y fun n => { n with left := x }
  let st := modN st x fun n => { n with parent := y }
  let xn := nd st x
  let leftSize := if xn.left ≠ 0 then (nd st xn.left).size_left + (nd st xn.left).piece.length else 0
  let leftLf := if xn.left ≠ 0 then (nd st xn.left).lf_left + (nd st xn.left).piece.lineFeedCnt else 0
  let st := modN st y fun n =>
    { n with size_left := xn.size_left + leftSize + xn.piece.length,
             lf_left := xn.lf_left + leftLf + xn.piece.lineFeedCnt }
  modN st x fun n => { n with size_left := leftSize, lf_left := leftLf }

/-- Member `PieceTreeBase::rotateRight` (piece_tree_base.cpp:1938),
including its metadata update. -/
def rotateRight (st : PT) (y : Nat) : PT :=
  let x := (nd st y).left
  let xRight := (nd st x).right
  let st := modN st y fun n => { n with left := xRight }
  let st := if xRight ≠ 0 then modN st xRight (fun n => { n with parent := y }) else st
  let yParent := (nd st y).parent
  let st := modN st x fun n => { n with parent := yParent }
  let st :=
    if yParent = 0 then { st with root := x }
    else if (nd st yParent).right = y then modN st yParent fun n => { n with right := x }
    else modN st yParent fun n => { n with left := x }
  let st := modN st x fun n => { n with right := y }
  let st := modN st y fun n => { n with parent := x }
  let yn := nd st y
  let ySize := if yn.left ≠ 0 then (nd st yn.left).size_left + (nd st yn.left).piece.length else 0
  let yLf := if yn.left ≠ 0 then (nd st yn.left).lf_left + (nd st yn.left).piece.lineFeedCnt else 0
  let st := modN st y fun n => { n with size_left := ySize, lf_left := yLf }
  let xn := nd st x
  let xSize := if xn.left ≠ 0 then (nd st xn.left).size_left + (nd st xn.left).piece.length else 0
  let xLf := if xn.left ≠ 0 then (nd st xn.left).lf_left + (nd st xn.left).piece.lineFeedCnt else 0
  modN st x fun n => { n with size_left := xSize, lf_left := xLf }

/-- Member `PieceTreeBase::transplant` (piece_tree_base.cpp:2019).  Note
that `v->parent = u->parent` is executed even when `v` is the sentinel,
exactly as in the C++ code. -/
def transplant (st : PT) (u v : Nat) : PT :=
  let uParent := (nd st u).parent
  let st :=
    if uParent = 0 then { st with root := v }
    else if (nd st uParent).left = u then modN st uParent fun n => { n with left := v }
    else modN st uParent fun n => { n with right := v }
  modN st v fun n => { n with parent := (nd st u).parent }

/-- Loop body of the member `fixInsert` (piece_tree_base.cpp:1813). -/
def fixInsertLoop : Nat → PT → Nat → PT
  | 0, st, _ => st
  | fuel + 1, st, x =>
      if x ≠ st.root ∧ (nd st (nd st x).parent).color = NodeColor.Red then
        let p := (nd st x).parent
        let g := (nd st p).parent
        if p = (nd st g).left then
          let y := (nd st g).right
          if (nd st y).color = NodeColor.Red then
            let st := modN st p fun n => { n with color := NodeColor.Black }
            let st := modN st y fun n => { n with color := NodeColor.Black }
            let st := modN st g fun n => { n with color := NodeColor.Red }
            fixInsertLoop fuel st g
          else
            let (st, x) :=
              if x = (nd st p).right then (rotateLeft st p, p) else (st, x)
            let p2 := (nd st x).parent
            let st := modN st p2 fun n => { n with color := NodeColor.Black }
            let g2 := (nd st p2).parent
            let st := modN st g2 fun n => { n with color := NodeColor.Red }
            let st := rotateRight st g2
            fixInsertLoop fuel st x
        else
          let y := (nd st g).left
          if (nd st y).color = NodeColor.Red then
            let st := modN st p fun n => { n with color := NodeColor.Black }
            let st := modN st y fun n => { n with color := NodeColor.Black }
            let st := modN st g fun n => { n with color := NodeColor.Red }
            fixInsertLoop fuel st g
          else
            let (st, x) :=
              if x = (nd st p).left then (rotateRight st p, p) else (st, x)
            let p2 := (nd st x).parent
            let st := modN st p2 fun n => { n with color := NodeColor.Black }
            let g2 := (nd st p2).parent
            let st := modN st g2 fun n => { n with color := NodeColor.Red }
            let st := rotateLeft st g2
            fixInsertLoop fuel st x
      else st

/-- Member `PieceTreeBase::fixInsert`. -/
def fixInsert (st : PT) (x : Nat) : PT :=
  let st := fixInsertLoop (FUEL st) st x
  modN st st.root fun n => { n with color := NodeColor.Black }

/-- Loop body of the member `fixDelete` (piece_tree_base.cpp:1852). -/
def fixDeleteLoop : Nat → PT → Nat → PT × Nat
  | 0, st, x => (st, x)
  | fuel + 1, st, x =>
      if x ≠ st.root ∧ (nd st x).color = NodeColor.Black then
        if x = (nd st (nd st x).parent).left then
          let w := (nd st (nd st x).parent).right
          let (st, w) :=
            if (nd st w).color = NodeColor.Red then
              let st := modN st w fun n => { n with color := NodeColor.Black }
              let st := modN st (nd st x).parent fun n => { n with color := NodeColor.Red }
              let st := rotateLeft st (nd st x).parent
              (st, (nd st (nd st x).parent).right)
            else (st, w)
          if (nd st (nd st w).left).color = NodeColor.Black ∧
              (nd st (nd st w).right).color = NodeColor.Black then
            let st := modN st w fun n => { n with color := NodeColor.Red }
            fixDeleteLoop fuel st (nd st x).parent
          else
            let (st, w) :=
              if (nd st (nd st w).right).color = NodeColor.Black then
                let st := modN st (nd st w).left fun n => { n with color := NodeColor.Black }
                let st := modN st w fun n => { n with color := NodeColor.Red }
                let st := rotateRight st w
                (st, (nd st (nd st x).parent).right)
              else (st, w)
            let st := modN st w fun n => { n with color := (nd st (nd st x).parent).color }
            let st := modN st (nd st x).parent fun n => { n with color := NodeColor.Black }
            let st := modN st (nd st w).right fun n => { n with color := NodeColor.Black }
            let st := rotateLeft st (nd st x).parent
            fixDeleteLoop fuel st st.root
        else
          let w := (nd st (nd st x).parent).left
          let (st, w) :=
            if (nd st w).color = NodeColor.Red then
              let st := modN st w fun n => { n with color := NodeColor.Black }
              let st := modN st (nd st x).parent fun n => { n with color := NodeColor.Red }
              let st := rotateRight st (nd st x).parent
              (st, (nd st (nd st x).parent).left)
            else (st, w)
          if (nd st (nd st w).right).color = NodeColor.Black ∧
              (nd st (nd st w).left).color = NodeColor.Black then
            let st := modN st w fun n => { n with color := NodeColor.Red }
            fixDeleteLoop fuel st (nd st x).parent
          else
            let (st, w) :=
              if (nd st (nd st w).left).color = NodeColor.Black then
                let st := modN st (nd st w).right fun n => { n with color := NodeColor.Black }
                let st := modN st w fun n => { n with color := NodeColor.Red }
                let st := rotateLeft st w
                (st, (nd st (nd st x).parent).left)
              else (st, w)
            let st := modN st w fun n => { n with color := (nd st (nd st x).parent).color }
            let st := modN st (nd st x).parent fun n => { n with color := NodeColor.Black }
            let st := modN st (nd st w).left fun n => { n with color := NodeColor.Black }
            let st := rotateRight st (nd st x).parent
            fixDeleteLoop fuel st st.root
      else (st, x)

/-- Member `PieceTreeBase::fixDelete`. -/
def fixDelete (st : PT) (x : Nat) : PT :=
  let (st, x) := fixDeleteLoop (FUEL st) st x
  modN st x fun n => { n with color := NodeColor.Black }

/-- Member `PieceTreeBase::rbDelete` (piece_tree_base.cpp:1969): the
Cormen-style delete.  `delete z->piece` is modelled by recording the
piece id in the freed set. -/
def rbDelete (st : PT) (z : Nat) : PT :=
  let zLen := (nd st z).piece.length
  let zLf := (nd st z).piece.lineFeedCnt
  let (st, x, yOriginalColor) :=
    if (nd st z).left = 0 then
      let c := (nd st z).color
      let x := (nd st z).right
      let st := transplant st z x
      let st := updateTreeMetadata st x (-zLen) (-zLf)
      (st, x, c)
    else if (nd st z).right = 0 then
      let c := (nd st z).color
      let x := (nd st z).left
      let st := transplant st z x
      let st := updateTreeMetadata st x (-zLen) (-zLf)
      (st, x, c)
    else
      let y := minimum st (nd st z).right
      let c := (nd st y).color
      let x := (nd st y).right
      let st :=
        if (nd st y).parent = z then
          modN st x fun n => { n with parent := y }
        else
          let st := transplant st y (nd st y).right
          let st := modN st y fun n => { n with right := (nd st z).right }
          modN st (nd st y).right fun n => { n with parent := y }
      let st := transplant st z y
      let st := modN st y fun n => { n with left := (nd st z).left }
      let st := modN st (nd st y).left fun n => { n with parent := y }
      let st := modN st y fun n =>
        { n with color := (nd st z).color, size_left := (nd st z).size_left,
                 lf_left := (nd st z).lf_left }
      (st, x, c)
  let st := { st with freedPieces := (nd st z).pieceId :: st.freedPieces }
  if yOriginalColor = NodeColor.Black then fixDelete st x else st

/-- `PieceTreeBase::rbInsertLeft` (piece_tree_base.cpp:951).  A `node`
argument of 0 models the `nullptr` passed when the tree is empty. -/
def rbInsertLeft (st : PT) (node : Nat) (piece : Piece) : PT × Nat :=
  let z := st.nodes.size
  let pid := st.nextPieceId
  let st := { st with
    nodes := st.nodes.push ⟨0, 0, 0, NodeColor.Red, piece, pid, 0, 0⟩,
    nextPieceId := pid + 1 }
  let st :=
    if st.root = 0 then
      let st := modN st z fun n => { n with color := NodeColor.Black }
      { st with root := z }
    else if (nd st node).left = 0 then
      let st := modN st node fun n => { n with left := z }
      modN st z fun n => { n with parent := node }
    else
      let prevN := rightest st (FUEL st) (nd st node).left
      let st := modN st prevN fun n => { n with right := z }
      modN st z fun n => { n with parent := prevN }
  (fixInsert st z, z)

/-- `PieceTreeBase::rbInsertRight` (piece_tree_base.cpp:975). -/
def rbInsertRight (st : PT) (node : Nat) (piece : Piece) : PT × Nat :=
  let z := st.nodes.size
  let pid := st.nextPieceId
  let st := { st with
    nodes := st.nodes.push ⟨0, 0, 0, NodeColor.Red, piece, pid, 0, 0⟩,
    nextPieceId := pid + 1 }
  let st :=
    if st.root = 0 then
      let st := modN st z fun n => { n with color := NodeColor.Black }
      { st with root := z }
    else if (nd st node).right = 0 then
      let st := modN st node fun n => { n with right := z }
      modN st z fun n => { n with parent := node }
    else
      let nextN := leftest st (FUEL st) (nd st node).right
      let st := modN st nextN fun n => { n with left := z }
      modN st z fun n => { n with parent := nextN }
  (fixInsert st z, z)

/-- `PieceTreeBase::deleteNodes`: delete each node in turn. -/
def deleteNodes (st : PT) (nodes : List Nat) : PT :=
  nodes.foldl rbDelete st

/-- `PieceTreeSearchCache::get`: first entry whose offset span covers the
query. -/
def cacheGet (st : PT) (offset : Int) : Option CacheEntry :=
  st.cache.find? fun e =>
    decide (e.nodeStartOffset ≤ offset ∧
      e.nodeStartOffset + (nd st e.node).piece.length ≥ offset)

/-- `PieceTreeSearchCache::get2`: first entry whose line span covers the
query. -/
def cacheGet2 (st : PT) (lineNumber : Int) : Option CacheEntry :=
  st.cache.find? fun e =>
    decide (e.nodeStartLineNumber ≤ lineNumber ∧
      e.nodeStartLineNumber + (nd st e.node).piece.lineFeedCnt ≥ lineNumber)

/-- `PieceTreeSearchCache::set`: append, evicting the oldest entry when
over the limit. -/
def cacheSet (st : PT) (e : CacheEntry) : PT :=
  let c := st.cache ++ [e]
  { st with cache := if c.length > st.cacheLimit then c.drop 1 else c }

/-- `PieceTreeSearchCache::validate`: drop entries that do not cover the
offset. -/
def cacheValidate (st : PT) (offset : Int) : PT :=
  { st with cache := st.cache.filter fun e =>
      decide (e.nodeStartOffset ≤ offset ∧
        e.nodeStartOffset + (nd st e.node).piece.length ≥ offset) }

/-- A `NodePosition`; `node = none` models the null node of the
default-constructed `NodePosition()`. -/
structure NodePosition where
  node : Option Nat
  remainder : Int
  nodeStartOffset : Int
deriving DecidableEq, Repr

/-- The descent loop of `nodeAt`. -/
def nodeAtLoop (st : PT) : Nat → Nat → Int → Int → Option (Nat × Int × Int)
  | 0, _, _, _ => none
  | fuel + 1, x, offset, nodeStartOffset =>
      if x ≠ 0 then
        if (nd st x).size_left > offset then
          nodeAtLoop st fuel (nd st x).left offset nodeStartOffset
        else if (nd st x).size_left + (nd st x).piece.length ≥ offset then
          some (x, offset - (nd st x).size_left, nodeStartOffset + (nd st x).size_left)
        else
          nodeAtLoop st fuel (nd st x).right
            (offset - ((nd st x).size_left + (nd st x).piece.length))
            (nodeStartOffset + (nd st x).size_left + (nd st x).piece.length)
      else none

/-- `PieceTreeBase::nodeAt` (piece_tree_base.cpp:1303): clamp the offset,
consult the search cache, otherwise descend and record a cache entry. -/
def nodeAt (st : PT) (offset0 : Int) : PT × NodePosition :=
  let offset := if offset0 > st.length then st.length else offset0
  match cacheGet st offset with
  | some e => (st, ⟨some e.node, offset - e.nodeStartOffset, e.nodeStartOffset⟩)
  | none =>
      match nodeAtLoop st (FUEL st) st.root offset 0 with
      | some (x, rem, nso) => (cacheSet st ⟨x, nso, 1⟩, ⟨some x, rem, nso⟩)
      | none => (st, ⟨none, 0, 0⟩)

/-- The walk of `offsetOfNode` up to the root. -/
def offsetOfNodeLoop (st : PT) : Nat → Nat → Int → Int
  | 0, _, pos => pos
  | fuel + 1, node, pos =>
      if node ≠ st.root then
        let p := (nd st node).parent
        let pos :=
          if (nd st p).right = node then pos + (nd st p).size_left + (nd st p).piece.length
          else pos
        offsetOfNodeLoop st fuel p pos
      else pos

/-- `PieceTreeBase::offsetOfNode` (piece_tree_base.cpp:1408). -/
def offsetOfNode (st : PT) (node : Nat) : Int :=
  offsetOfNodeLoop st (FUEL st) node (nd st node).size_left

/-- First loop of `nodeAt2`; `Sum.inr (x, column)` is the fall-through
into the successor loop (from a `break` or from running off the tree). -/
def nodeAt2Loop1 (st : PT) :
    Nat → Nat → Int → Int → Int → NodePosition ⊕ (Nat × Int)
  | 0, x, _, column, _ => Sum.inr (x, column)
  | fuel + 1, x, lineNumber, column, nodeStartOffset =>
      if x ≠ 0 then
        if (nd st x).left ≠ 0 ∧ (nd st x).lf_left ≥ lineNumber then
          nodeAt2Loop1 st fuel (nd st x).left lineNumber column nodeStartOffset
        else if (nd st x).lf_left + (nd st x).piece.lineFeedCnt > lineNumber then
          let prevLineIndex := lineNumber - 1
          let prevAccumulatedValue :=
            if prevLineIndex ≥ (nd st x).lf_left then
              getAccumulatedValue st x (prevLineIndex - (nd st x).lf_left)
            else 0
          let accumulatedValue := getAccumulatedValue st x (lineNumber - (nd st x).lf_left)
          Sum.inl ⟨some x, min (prevAccumulatedValue + column) accumulatedValue,
            nodeStartOffset + (nd st x).size_left⟩
        else if (nd st x).lf_left + (nd st x).piece.lineFeedCnt = lineNumber then
          let prevLineIndex := lineNumber - 1
          let prevAccumulatedValue :=
            if prevLineIndex ≥ (nd st x).lf_left then
              getAccumulatedValue st x (prevLineIndex - (nd st x).lf_left)
            else 0
          if prevAccumulatedValue + column ≤ (nd st x).piece.length then
            Sum.inl ⟨some x, prevAccumulatedValue + column,
              nodeStartOffset + (nd st x).size_left⟩
          else
            Sum.inr (x, column - ((nd st x).piece.length - prevAccumulatedValue))
        else
          nodeAt2Loop1 st fuel (nd st x).right
            (lineNumber - ((nd st x).lf_left + (nd st x).piece.lineFeedCnt)) column
            (nodeStartOffset + (nd st x).size_left + (nd st x).piece.length)
      else Sum.inr (x, column)

/-- Second loop of `nodeAt2`: scan successors for the column. -/
def nodeAt2Loop2 (st : PT) : Nat → Nat → Int → NodePosition
  | 0, _, _ => ⟨none, 0, 0⟩
  | fuel + 1, x, column =>
      if x ≠ 0 then
        if (nd st x).piece.lineFeedCnt > 0 then
          let accumulatedValue := getAccumulatedValue st x 0
          ⟨some x, min column accumulatedValue, offsetOfNode st x⟩
        else if (nd st x).piece.length ≥ column then
          ⟨some x, column, offsetOfNode st x⟩
        else nodeAt2Loop2 st fuel (nextNode st x) (column - (nd st x).piece.length)
      else ⟨none, 0, 0⟩

/-- `PieceTreeBase::nodeAt2` (piece_tree_base.cpp:1337). -/
def nodeAt2 (st : PT) (lineNumber column : Int) : NodePosition :=
  match nodeAt2Loop1 st (FUEL st) st.root lineNumber column 0 with
  | Sum.inl np => np
  | Sum.inr (x, column) => nodeAt2Loop2 st (FUEL st) (nextNode st x) column

/-- `PieceTreeBase::getNodeContent`. -/
def getNodeContent (st : PT) (node : Nat) : Str :=
  if node = 0 then []
  else
    let piece := (nd st node).piece
    let buffer := (buf st piece.bufferIndex).buffer
    let startOffset := offsetInBuffer st piece.bufferIndex piece.start
    let endOffset := offsetInBuffer st piece.bufferIndex piece.endPos
    csubstr buffer startOffset (endOffset - startOffset)

/-- `PieceTreeBase::getPieceContent` (resolves a piece value against the
current buffer list). -/
def getPieceContent (st : PT) (piece : Piece) : Str :=
  let buffer := (buf st piece.bufferIndex).buffer
  let startOffset := offsetInBuffer st piece.bufferIndex piece.start
  let endOffset := offsetInBuffer st piece.bufferIndex piece.endPos
  csubstr buffer startOffset (endOffset - startOffset)

/-- In-order concatenation of node contents (`getContentOfSubTree`, via
`iterate`). -/
def subtreeContent (st : PT) : Nat → Nat → Str
  | 0, _ => []
  | fuel + 1, i =>
      if i = 0 then []
      else
        subtreeContent st fuel (nd st i).left ++ getNodeContent st i ++
          subtreeContent st fuel (nd st i).right

/-- `PieceTreeBase::getValue` = `getContentOfSubTree(root)`: the document
bytes. -/
def getValue (st : PT) : Str := subtreeContent st (FUEL st) st.root

/-- The in-order accumulation loop of `computeBufferMetadata`. -/
def cbmLoop (st : PT) : Nat → Nat → Int → Int → Int × Int
  | 0, _, len, cnt => (len, cnt)
  | fuel + 1, node, len, cnt =>
      if node ≠ 0 then
        cbmLoop st fuel (nextNode st node)
          (len + (nd st node).piece.length) (cnt + (nd st node).piece.lineFeedCnt)
      else (len, cnt)

/-- `PieceTreeBase::computeBufferMetadata` (piece_tree_base.cpp:1078):
full in-order recount of `_length` and `_lineCnt`, clamped to be
non-negative / at least 1. -/
def computeBufferMetadata (st : PT) : PT :=
  let (len, cnt) := cbmLoop st (FUEL st) (minimum st st.root) 0 1
  { st with lineCnt := if cnt < 1 then 1 else cnt,
            length := if len < 0 then 0 else len }

/-- Build a `StringBuffer` the way the builder does, with the full
line-start table. -/
def mkChunk (s : Str) : StringBuffer := ⟨s, createLineStartsFast s⟩

/-- The chunk loop of `create`: plant one piece per non-empty chunk via
`rbInsertRight`; the piece's buffer index is the chunk's list position
plus one. -/
def createLoop : List StringBuffer → Nat → Nat → PT → PT
  | [], _, _, st => st
  | chunk :: rest, i, lastNode, st =>
      if chunk.buffer ≠ [] then
        let piece : Piece :=
          ⟨(i : Int) + 1, ⟨0, 0⟩,
            ⟨(chunk.lineStarts.length : Int) - 1,
              (chunk.buffer.length : Int) - backI chunk.lineStarts⟩,
            (chunk.lineStarts.length : Int) - 1, (chunk.buffer.length : Int)⟩
        let st := { st with buffers := st.buffers.push chunk }
        let (st, z) := rbInsertRight st lastNode piece
        createLoop rest (i + 1) z st
      else createLoop rest (i + 1) lastNode st

/-- `PieceTreeBase::create` (piece_tree_base.cpp:20): reset the buffer
list and tree, plant the chunks, reset the cache (capacity 1) and the
last-visited-line memo, recount the metadata.  The old tree's nodes are
leaked in the C++ code, so the arena keeps them. -/
def create (st : PT) (chunks : List StringBuffer) (eol : Str) (eolNormalized : Bool) : PT :=
  let st := { st with
    buffers := #[⟨[], [0]⟩],
    lastChangeBufferPos := ⟨0, 0⟩,
    root := 0,
    lineCnt := 1,
    length := 0,
    eol := eol,
    eolLength := (eol.length : Int),
    eolNormalized := eolNormalized }
  let st := createLoop chunks 0 0 st
  let st := { st with cache := [], cacheLimit := 1, lastVisitedLine := (0, []) }
  computeBufferMetadata st

/-- The freshly constructed `PieceTreeBase` (its constructor: sentinel
root, one empty change buffer, cache capacity 10,
`lastChangeBufferPos = (1, 1)`). -/
def initialPT : PT :=
  { nodes := #[sentinelNode]
    root := 0
    buffers := #[⟨[], []⟩]
    lineCnt := 1
    length := 0
    eol := []
    eolLength := 0
    eolNormalized := false
    lastChangeBufferPos := ⟨1, 1⟩
    cache := []
    cacheLimit := 10
    lastVisitedLine := (0, [])
    nextPieceId := 1
    freedPieces := [] }

/-- `shouldCheckCRLF`: CRLF repair only when not EOL-normalized. -/
def shouldCheckCRLF (st : PT) : Bool := !st.eolNormalized

/-- `startWithLF(const std::string&)`. -/
def startWithLFStr : Str → Bool
  | [] => false
  | c :: _ => c = '\n'

/-- `endWithCR(const std::string&)`. -/
def endWithCRStr (val : Str) : Bool :=
  match val.getLast? with
  | some c => c = '\r'
  | none => false

/-- `startWithLF(TreeNode*)` (piece_tree_base.cpp:1433). -/
def startWithLFNode (st : PT) (i : Nat) : Bool :=
  if i = 0 then false
  else
    let piece := (nd st i).piece
    let sb := buf st piece.bufferIndex
    if piece.start.line ≥ (sb.lineStarts.length : Int) then false
    else
      let pos := getI sb.lineStarts piece.start.line + piece.start.column
      decide (pos < (sb.buffer.length : Int)) && decide (chAt sb.buffer pos = '\n')

/-- `endWithCR(TreeNode*)` (piece_tree_base.cpp:1454). -/
def endWithCRNode (st : PT) (i : Nat) : Bool :=
  if i = 0 then false
  else
    let piece := (nd st i).piece
    let sb := buf st piece.bufferIndex
    if piece.endPos.line ≥ (sb.lineStarts.length : Int) then false
    else
      let pos := getI sb.lineStarts piece.endPos.line + piece.endPos.column
      decide (pos > 0) && decide (pos ≤ (sb.buffer.length : Int)) &&
        decide (chAt sb.buffer (pos - 1) = '\r')

/-- `nodeCharCodeAt` (piece_tree_base.cpp:1399): 0 when the piece has no
line feeds, otherwise the byte at the piece-local offset. -/
def nodeCharCodeAt (st : PT) (node : Nat) (offset : Int) : Int :=
  if (nd st node).piece.lineFeedCnt < 1 then 0
  else
    let piece := (nd st node).piece
    let buffer := (buf st piece.bufferIndex).buffer
    let newOffset := offsetInBuffer st piece.bufferIndex piece.start + offset
    ((chAt buffer newOffset).toNat : Int)

/-- `delete node->piece; node->piece = newPiece;`: the old piece id goes
to the freed set and the node gets a freshly allocated piece. -/
def replacePiece (st : PT) (node : Nat) (p : Piece) : PT :=
  let old := (nd st node).pieceId
  let pid := st.nextPieceId
  let st := { st with freedPieces := old :: st.freedPieces, nextPieceId := pid + 1 }
  modN st node fun n => { n with piece := p, pieceId := pid }

/-- `PieceTreeBase::deleteNodeTail` (piece_tree_base.cpp:1127). -/
def deleteNodeTail (st : PT) (node : Nat) (pos : BufferCursor) : PT :=
  let piece := (nd st node).piece
  let originalLFCnt := piece.lineFeedCnt
  let originalEndOffset := offsetInBuffer st piece.bufferIndex piece.endPos
  let newEnd := pos
  let newEndOffset := offsetInBuffer st piece.bufferIndex newEnd
  let newLineFeedCnt := getLineFeedCnt st piece.bufferIndex piece.start newEnd
  let lf_delta := newLineFeedCnt - originalLFCnt
  let size_delta := newEndOffset - originalEndOffset
  let newLength := piece.length + size_delta
  let st := replacePiece st node
    ⟨piece.bufferIndex, piece.start, newEnd, newLineFeedCnt, newLength⟩
  updateTreeMetadata st node size_delta lf_delta

/-- `PieceTreeBase::deleteNodeHead` (piece_tree_base.cpp:1154). -/
def deleteNodeHead (st : PT) (node : Nat) (pos : BufferCursor) : PT :=
  let piece := (nd st node).piece
  let originalLFCnt := piece.lineFeedCnt
  let originalStartOffset := offsetInBuffer st piece.bufferIndex piece.start
  let newStart := pos
  let newLineFeedCnt := getLineFeedCnt st piece.bufferIndex newStart piece.endPos
  let newStartOffset := offsetInBuffer st piece.bufferIndex newStart
  let lf_delta := newLineFeedCnt - originalLFCnt
  let size_delta := originalStartOffset - newStartOffset
  let newLength := piece.length + size_delta
  let st := replacePiece st node
    ⟨piece.bufferIndex, newStart, piece.endPos, newLineFeedCnt, newLength⟩
  updateTreeMetadata st node size_delta lf_delta

/-- `PieceTreeBase::handleCRLFJoin` (piece_tree_base.cpp:668): shorten
`prev` by its trailing CR; the next node is deliberately left alone. -/
def handleCRLFJoin (st : PT) (prevN nextN : Nat) : PT :=
  if prevN = 0 ∨ nextN = 0 then st
  else if ¬(endWithCRNode st prevN ∧ startWithLFNode st nextN) then st
  else
    let prevPiece := (nd st prevN).piece
    let originalLength := prevPiece.length
    let originalLFCnt := prevPiece.lineFeedCnt
    if prevPiece.endPos.column > 0 then
      let newEnd : BufferCursor := ⟨prevPiece.endPos.line, prevPiece.endPos.column - 1⟩
      let newLength := originalLength - 1
      let newLFCnt := getLineFeedCnt st prevPiece.bufferIndex prevPiece.start newEnd
      let lf_delta := newLFCnt - originalLFCnt
      let st := replacePiece st prevN
        ⟨prevPiece.bufferIndex, prevPiece.start, newEnd, newLFCnt, newLength⟩
      updateTreeMetadata st prevN (-1) lf_delta
    else if prevPiece.endPos.line > 0 then
      let lineStarts := (buf st prevPiece.bufferIndex).lineStarts
      let prevLineIndex := prevPiece.endPos.line - 1
      let prevLineLength := getI lineStarts prevPiece.endPos.line - getI lineStarts prevLineIndex
      let newEnd : BufferCursor := ⟨prevLineIndex, prevLineLength⟩
      let newLength := originalLength - 1
      let newLFCnt := getLineFeedCnt st prevPiece.bufferIndex prevPiece.start newEnd
      let lf_delta := newLFCnt - originalLFCnt
      let st := replacePiece st prevN
        ⟨prevPiece.bufferIndex, prevPiece.start, newEnd, newLFCnt, newLength⟩
      updateTreeMetadata st prevN (-1) lf_delta
    else st

/-- `validateCRLFWithPrevNode` (piece_tree_base.cpp:1469). -/
def validateCRLFWithPrevNode (st : PT) (node : Nat) : PT :=
  if node = 0 ∨ ¬shouldCheckCRLF st then st
  else
    let prev := prevNode st node
    if prev = 0 then st
    else if endWithCRNode st prev ∧ startWithLFNode st node then
      handleCRLFJoin st prev node
    else st

/-- `validateCRLFWithNextNode` (piece_tree_base.cpp:1486). -/
def validateCRLFWithNextNode (st : PT) (node : Nat) : PT :=
  if node = 0 ∨ ¬shouldCheckCRLF st then st
  else
    let next := nextNode st node
    if next = 0 then st
    else if endWithCRNode st node ∧ startWithLFNode st next then
      handleCRLFJoin st node next
    else st

/-- `PieceTreeBase::shrinkNode` (piece_tree_base.cpp:1181). -/
def shrinkNode (st : PT) (node : Nat) (start endPos : BufferCursor) : PT :=
  if node = 0 then st
  else
    let piece := (nd st node).piece
    let startOffset := offsetInBuffer st piece.bufferIndex piece.start
    let midStartOffset := offsetInBuffer st piece.bufferIndex start
    let midEndOffset := offsetInBuffer st piece.bufferIndex endPos
    let endOffset := offsetInBuffer st piece.bufferIndex piece.endPos
    let leftLength := midStartOffset - startOffset
    if leftLength ≤ 0 then deleteNodeHead st node endPos
    else
      let rightLength := endOffset - midEndOffset
      if rightLength ≤ 0 then deleteNodeTail st node start
      else
        let totalLF := piece.lineFeedCnt
        let leftLFCnt := getLineFeedCnt st piece.bufferIndex piece.start start
        let middleLFCnt := getLineFeedCnt st piece.bufferIndex start endPos
        let rightLFCnt0 := totalLF - leftLFCnt - middleLFCnt
        let rightLFCnt := if rightLFCnt0 < 0 then 0 else rightLFCnt0
        let rightPiece : Piece := ⟨piece.bufferIndex, endPos, piece.endPos, rightLFCnt, rightLength⟩
        let leftPiece : Piece := ⟨piece.bufferIndex, piece.start, start, leftLFCnt, leftLength⟩
        let st := replacePiece st node leftPiece
        let sizeDelta := -(rightLength + (midEndOffset - midStartOffset))
        let lfDelta := -(rightLFCnt + middleLFCnt)
        let st := updateTreeMetadata st node sizeDelta lfDelta
        let (st, _) := rbInsertRight st node rightPiece
        validateCRLFWithNextNode st node

/-- The chunking threshold (`AverageBufferSize`). -/
def AverageBufferSize : Int := 65535

/-- The oversize loop of `createNewPieces` (piece_tree_base.cpp:851):
cut into fresh buffers, backing the split point off a CR or a
high-surrogate lead byte. -/
def createNewPiecesLong : Nat → PT → Str → List Piece → PT × List Piece
  | 0, st, _, acc => (st, acc)
  | fuel + 1, st, remainingText, acc =>
      if (remainingText.length : Int) > AverageBufferSize then
        let splitPos : Int := AverageBufferSize - 1
        let lastChar := chAt remainingText splitPos
        let splitPos :=
          if lastChar = '\r' ∨ (0xD8 ≤ lastChar.toNat ∧ lastChar.toNat ≤ 0xDB) then
            splitPos - 1
          else splitPos
        let splitPos := max splitPos 0
        let splitText := csubstr remainingText 0 (splitPos + 1)
        let remainingText := remainingText.drop (splitPos + 1).toNat
        let lineStarts := createLineStartsFast splitText
        let piece : Piece :=
          ⟨(st.buffers.size : Int), ⟨0, 0⟩,
            ⟨(lineStarts.length : Int) - 1,
              (splitText.length : Int) - getI lineStarts ((lineStarts.length : Int) - 1)⟩,
            (lineStarts.length : Int) - 1, (splitText.length : Int)⟩
        let st := { st with buffers := st.buffers.push ⟨splitText, lineStarts⟩ }
        createNewPiecesLong fuel st remainingText (acc ++ [piece])
      else if remainingText ≠ [] then
        let lineStarts := createLineStartsFast remainingText
        let piece : Piece :=
          ⟨(st.buffers.size : Int), ⟨0, 0⟩,
            ⟨(lineStarts.length : Int) - 1,
              (remainingText.length : Int) - getI lineStarts ((lineStarts.length : Int) - 1)⟩,
            (lineStarts.length : Int) - 1, (remainingText.length : Int)⟩
        let st := { st with buffers := st.buffers.push ⟨remainingText, lineStarts⟩ }
        (st, acc ++ [piece])
      else (st, acc)

/-- `PieceTreeBase::createNewPieces` (piece_tree_base.cpp:851).  Texts at
most `AverageBufferSize` long are appended to the change buffer
(with the `'_'` padding byte when the append would split a CRLF), longer
texts are cut into fresh buffers. -/
def createNewPieces (st : PT) (text : Str) : PT × List Piece :=
  if (text.length : Int) > AverageBufferSize then
    createNewPiecesLong (text.length / 65535 + 2) st text []
  else
    let startOffset := ((buf st 0).buffer.length : Int)
    let lineStarts := createLineStartsFast text
    let b0 := buf st 0
    if b0.lineStarts.length > 0 ∧ backI b0.lineStarts = startOffset ∧ startOffset ≠ 0 ∧
        startWithLFStr text ∧ endWithCRStr b0.buffer then
      let start : BufferCursor :=
        ⟨st.lastChangeBufferPos.line, st.lastChangeBufferPos.column + 1⟩
      let st := { st with lastChangeBufferPos := start }
      let newBuf := b0.buffer ++ '_' :: text
      let newLS := b0.lineStarts ++ (lineStarts.drop 1).map (· + startOffset + 1)
      let st := setBuf st 0 ⟨newBuf, newLS⟩
      let startOffset := startOffset + 1
      let b0 := buf st 0
      let endCur : BufferCursor :=
        ⟨(b0.lineStarts.length : Int) - 1, (b0.buffer.length : Int) - backI b0.lineStarts⟩
      let st := { st with lastChangeBufferPos := endCur }
      (st, [⟨0, start, endCur, endCur.line - start.line, (b0.buffer.length : Int) - startOffset⟩])
    else
      let start := st.lastChangeBufferPos
      let newBuf := b0.buffer ++ text
      let newLS := b0.lineStarts ++ (lineStarts.drop 1).map (· + startOffset)
      let st := setBuf st 0 ⟨newBuf, newLS⟩
      let b0 := buf st 0
      let endCur : BufferCursor :=
        ⟨(b0.lineStarts.length : Int) - 1, (b0.buffer.length : Int) - backI b0.lineStarts⟩
      let st := { st with lastChangeBufferPos := endCur }
      (st, [⟨0, start, endCur, endCur.line - start.line, (b0.buffer.length : Int) - startOffset⟩])

/-- `PieceTreeBase::fixCRLF` (piece_tree_base.cpp:1502): shrink both
sides of a split CRLF and plant a fresh two-byte piece between them. -/
def fixCRLF (st : PT) (prevN nextN : Nat) : PT :=
  let prevPiece := (nd st prevN).piece
  let lineStarts := (buf st prevPiece.bufferIndex).lineStarts
  let newEnd : BufferCursor :=
    if prevPiece.endPos.column = 0 then
      ⟨prevPiece.endPos.line - 1,
        getI lineStarts prevPiece.endPos.line - getI lineStarts (prevPiece.endPos.line - 1) - 1⟩
    else ⟨prevPiece.endPos.line, prevPiece.endPos.column - 1⟩
  let prevNewLength := prevPiece.length - 1
  let prevNewLFCnt := prevPiece.lineFeedCnt - 1
  let st := replacePiece st prevN
    ⟨prevPiece.bufferIndex, prevPiece.start, newEnd, prevNewLFCnt, prevNewLength⟩
  let st := updateTreeMetadata st prevN (-1) (-1)
  let nodesToDel := if (nd st prevN).piece.length = 0 then [prevN] else []
  let nextPiece := (nd st nextN).piece
  let newStart : BufferCursor := ⟨nextPiece.start.line + 1, 0⟩
  let newLength := nextPiece.length - 1
  let newLineFeedCnt := getLineFeedCnt st nextPiece.bufferIndex newStart nextPiece.endPos
  let st := replacePiece st nextN
    ⟨nextPiece.bufferIndex, newStart, nextPiece.endPos, newLineFeedCnt, newLength⟩
  let st := updateTreeMetadata st nextN (-1) (-1)
  let nodesToDel := nodesToDel ++ (if (nd st nextN).piece.length = 0 then [nextN] else [])
  let (st, pieces) := createNewPieces st (str "\r\n")
  let (st, _) := rbInsertRight st prevN (pieces.headD dummyPiece)
  nodesToDel.foldl rbDelete st

/-- `adjustCarriageReturnFromNext` (piece_tree_base.cpp:1562): absorb the
leading LF of the successor when the value being appended ends in CR. -/
def adjustCarriageReturnFromNext (st : PT) (value : Str) (node : Nat) : PT × Bool :=
  if shouldCheckCRLF st ∧ endWithCRStr value then
    let nextN := nextNode st node
    if startWithLFNode st nextN then
      if (nd st nextN).piece.length = 1 then (rbDelete st nextN, true)
      else
        let piece := (nd st nextN).piece
        let newStart : BufferCursor := ⟨piece.start.line + 1, 0⟩
        let newLength := piece.length - 1
        let newLineFeedCnt := getLineFeedCnt st piece.bufferIndex newStart piece.endPos
        let st := replacePiece st nextN
          ⟨piece.bufferIndex, newStart, piece.endPos, newLineFeedCnt, newLength⟩
        (updateTreeMetadata st nextN (-1) (-1), true)
    else (st, false)
  else (st, false)

/-- `PieceTreeBase::appendToNode` (piece_tree_base.cpp:1255): the change
buffer fast path of `insert`. -/
def appendToNode (st : PT) (node : Nat) (value : Str) : PT :=
  let (st, adjusted) := adjustCarriageReturnFromNext st value node
  let newValue := if adjusted then value ++ ['\n'] else value
  let hitCRLF := shouldCheckCRLF st ∧ startWithLFStr newValue ∧ endWithCRNode st node
  let startOffset := ((buf st 0).buffer.length : Int)
  let st := setBuf st 0 { buf st 0 with buffer := (buf st 0).buffer ++ newValue }
  let lineStarts := (createLineStartsFast newValue).map (· + startOffset)
  let st :=
    if hitCRLF then
      let b0 := buf st 0
      let prevStartOffset := getI b0.lineStarts ((b0.lineStarts.length : Int) - 2)
      let st := setBuf st 0 { b0 with lineStarts := b0.lineStarts.dropLast }
      { st with lastChangeBufferPos :=
          ⟨st.lastChangeBufferPos.line - 1, startOffset - prevStartOffset⟩ }
    else st
  let st := setBuf st 0
    { buf st 0 with lineStarts := (buf st 0).lineStarts ++ lineStarts.drop 1 }
  let b0 := buf st 0
  let endIndex := (b0.lineStarts.length : Int) - 1
  let endColumn := (b0.buffer.length : Int) - getI b0.lineStarts endIndex
  let newEnd : BufferCursor := ⟨endIndex, endColumn⟩
  let newLength := (nd st node).piece.length + (newValue.length : Int)
  let oldLineFeedCnt := (nd st node).piece.lineFeedCnt
  let newLineFeedCnt := getLineFeedCnt st 0 (nd st node).piece.start newEnd
  let lf_delta := newLineFeedCnt - oldLineFeedCnt
  let st := replacePiece st node
    ⟨(nd st node).piece.bufferIndex, (nd st node).piece.start, newEnd, newLineFeedCnt, newLength⟩
  let st := { st with lastChangeBufferPos := newEnd }
  updateTreeMetadata st node (newValue.length : Int) lf_delta

/-- Plant a list of pieces to the left of `node`, last piece first, as in
`insertContentToNodeLeft`; returns the node of the first piece. -/
def insertPiecesLeft (st : PT) (node : Nat) (pieces : List Piece) : PT × Nat :=
  pieces.reverse.foldl (fun acc p => rbInsertLeft acc.1 acc.2 p) (st, node)

/-- Plant a list of pieces to the right of `node`, in order, as in
`insertContentToNodeRight`; returns the node of the first piece. -/
def insertPiecesRight (st : PT) (node : Nat) (pieces : List Piece) : PT × Nat :=
  match pieces with
  | [] => (st, node)
  | p :: rest =>
      let (st, newNode) := rbInsertRight st node p
      let (st, _) := rest.foldl (fun acc q => rbInsertRight acc.1 acc.2 q) (st, newNode)
      (st, newNode)

/-- Plant pieces to the right of `node`, returning the node of the LAST
piece (the `tmpNode` loop of `insert`). -/
def insertPiecesRightLast (st : PT) (node : Nat) (pieces : List Piece) : PT × Nat :=
  pieces.foldl (fun acc p => rbInsertRight acc.1 acc.2 p) (st, node)

/-- `PieceTreeBase::insertContentToNodeLeft` (piece_tree_base.cpp:718). -/
def insertContentToNodeLeft (st : PT) (value : Str) (node : Nat) : PT :=
  if shouldCheckCRLF st ∧ endWithCRStr value ∧ startWithLFNode st node then
    let piece := (nd st node).piece
    let newStart : BufferCursor := ⟨piece.start.line + 1, 0⟩
    let nPiece : Piece :=
      ⟨piece.bufferIndex, newStart, piece.endPos,
        getLineFeedCnt st piece.bufferIndex newStart piece.endPos, piece.length - 1⟩
    let st := replacePiece st node nPiece
    let newValue := value ++ ['\n']
    let st := updateTreeMetadata st node (-1) (-1)
    let nodesToDel := if (nd st node).piece.length = 0 then [node] else []
    let (st, newPieces) := createNewPieces st newValue
    let (st, newNode) := insertPiecesLeft st node newPieces
    let st := validateCRLFWithPrevNode st newNode
    deleteNodes st nodesToDel
  else
    let (st, newPieces) := createNewPieces st value
    let (st, newNode) := insertPiecesLeft st node newPieces
    validateCRLFWithPrevNode st newNode

/-- `PieceTreeBase::insertContentToNodeRight` (piece_tree_base.cpp:760). -/
def insertContentToNodeRight (st : PT) (value : Str) (node : Nat) : PT :=
  let (st, adjusted) := adjustCarriageReturnFromNext st value node
  let newValue := if adjusted then value ++ ['\n'] else value
  let (st, newPieces) := createNewPieces st newValue
  let (st, newNode) := insertPiecesRight st node newPieces
  validateCRLFWithPrevNode st newNode

/-- `PieceTreeBase::insert` (piece_tree_base.cpp:397). -/
def insert (st : PT) (offset0 : Int) (value : Str) (eolNormalized : Bool := false) : PT :=
  if value = [] then st
  else
    let st := { st with
      eolNormalized := st.eolNormalized && eolNormalized,
      lastVisitedLine := (0, []) }
    let currentLength := st.length
    let offset := if offset0 > currentLength then currentLength else offset0
    if st.root ≠ 0 then
      let (st, nodePosition) := nodeAt st offset
      match nodePosition.node with
      | none => st
      | some node =>
          let remainder := nodePosition.remainder
          let nodeStartOffset := nodePosition.nodeStartOffset
          let piece := (nd st node).piece
          let bufferIndex := piece.bufferIndex
          let insertPosInBuffer := positionInBuffer st node remainder
          if piece.bufferIndex = 0 ∧
              piece.endPos.line = st.lastChangeBufferPos.line ∧
              piece.endPos.column = st.lastChangeBufferPos.column ∧
              nodeStartOffset + piece.length = offset ∧
              (value.length : Int) < AverageBufferSize then
            let st := appendToNode st node value
            computeBufferMetadata st
          else if nodeStartOffset = offset then
            let st := insertContentToNodeLeft st value node
            let st := cacheValidate st offset
            computeBufferMetadata st
          else if nodeStartOffset + (nd st node).piece.length > offset then
            let newRightPiece : Piece :=
              ⟨piece.bufferIndex, insertPosInBuffer, piece.endPos,
                getLineFeedCnt st piece.bufferIndex insertPosInBuffer piece.endPos,
                offsetInBuffer st bufferIndex piece.endPos -
                  offsetInBuffer st bufferIndex insertPosInBuffer⟩
            if shouldCheckCRLF st ∧ endWithCRStr value ∧
                nodeCharCodeAt st node remainder = 10 then
              let newStart : BufferCursor := ⟨newRightPiece.start.line + 1, 0⟩
              let newRightPiece : Piece :=
                ⟨piece.bufferIndex, newStart, piece.endPos,
                  getLineFeedCnt st piece.bufferIndex newStart piece.endPos,
                  offsetInBuffer st bufferIndex piece.endPos -
                    offsetInBuffer st bufferIndex newStart⟩
              let newValue := value ++ ['\n']
              let st := insertContentToNodeLeft st newValue node
              let st :=
                if newRightPiece.length > 0 then (rbInsertRight st node newRightPiece).1
                else st
              computeBufferMetadata st
            else if shouldCheckCRLF st ∧ startWithLFStr value ∧
                nodeCharCodeAt st node (remainder - 1) = 13 then
              let previousPos := positionInBuffer st node (remainder - 1)
              let st := deleteNodeTail st node previousPos
              let newValue := '\r' :: value
              let nodesToDel := if (nd st node).piece.length = 0 then [node] else []
              let (st, newPieces) := createNewPieces st newValue
              let (st, tmpNode) := insertPiecesRightLast st node newPieces
              let st :=
                if newRightPiece.length > 0 then (rbInsertRight st tmpNode newRightPiece).1
                else st
              let st := deleteNodes st nodesToDel
              computeBufferMetadata st
            else
              let st := deleteNodeTail st node insertPosInBuffer
              let (st, newPieces) := createNewPieces st value
              let (st, tmpNode) := insertPiecesRightLast st node newPieces
              let st :=
                if newRightPiece.length > 0 then (rbInsertRight st tmpNode newRightPiece).1
                else st
              computeBufferMetadata st
          else
            let st := insertContentToNodeRight st value node
            computeBufferMetadata st
    else
      let (st, pieces) := createNewPieces st value
      match pieces with
      | [] => computeBufferMetadata st
      | p :: rest =>
          let (st, node) := rbInsertLeft st 0 p
          let (st, _) := rest.foldl (fun acc q => rbInsertRight acc.1 acc.2 q) (st, node)
          computeBufferMetadata st

/-- Collect the nodes strictly between `startNode->next()` and `endNode`
(the `nodesToDel` walk of the cross-piece delete). -/
def collectMiddle (st : PT) : Nat → Nat → Nat → List Nat → List Nat
  | 0, _, _, acc => acc
  | fuel + 1, node, endN, acc =>
      if node ≠ 0 ∧ node ≠ endN then
        collectMiddle st fuel (nextNode st node) endN (acc ++ [node])
      else acc

/-- `PieceTreeBase::delete_` (piece_tree_base.cpp:547). -/
def delete_ (st : PT) (offset count0 : Int) : PT :=
  let st := { st with lastVisitedLine := (0, []) }
  if count0 ≤ 0 ∨ st.root = 0 then st
  else
    let maxLength := st.length
    if offset ≥ maxLength then st
    else
      let count := if offset + count0 > maxLength then maxLength - offset else count0
      let (st, startPosition) := nodeAt st offset
      let (st, endPosition) := nodeAt st (offset + count)
      match startPosition.node, endPosition.node with
      | some startNode, some endNode =>
          if startNode = endNode then
            let startSplitPosInBuffer := positionInBuffer st startNode startPosition.remainder
            let endSplitPosInBuffer := positionInBuffer st startNode endPosition.remainder
            if startPosition.nodeStartOffset = offset then
              if count = (nd st startNode).piece.length then
                let next := nextNode st startNode
                let st := rbDelete st startNode
                let st := validateCRLFWithPrevNode st next
                computeBufferMetadata st
              else
                let st := deleteNodeHead st startNode endSplitPosInBuffer
                let st := cacheValidate st offset
                let st := validateCRLFWithPrevNode st startNode
                computeBufferMetadata st
            else if startPosition.nodeStartOffset + (nd st startNode).piece.length =
                offset + count then
              let st := deleteNodeTail st startNode startSplitPosInBuffer
              let st := validateCRLFWithNextNode st startNode
              computeBufferMetadata st
            else
              let st := shrinkNode st startNode startSplitPosInBuffer endSplitPosInBuffer
              computeBufferMetadata st
          else
            let startSplitPosInBuffer := positionInBuffer st startNode startPosition.remainder
            let st := deleteNodeTail st startNode startSplitPosInBuffer
            let st := cacheValidate st offset
            let startNodeEmpty := (nd st startNode).piece.length = 0
            let nodesToDel := if startNodeEmpty then [startNode] else []
            let endSplitPosInBuffer := positionInBuffer st endNode endPosition.remainder
            let st := deleteNodeHead st endNode endSplitPosInBuffer
            let endNodeEmpty := (nd st endNode).piece.length = 0
            let nodesToDel := nodesToDel ++ (if endNodeEmpty then [endNode] else [])
            let secondNode := nextNode st startNode
            let nodesToDel := collectMiddle st (FUEL st) secondNode endNode nodesToDel
            let prevN := if startNodeEmpty then prevNode st startNode else startNode
            let nextN := if endNodeEmpty then nextNode st endNode else endNode
            let st := deleteNodes st nodesToDel
            let st :=
              if prevN ≠ 0 then
                if nextN ≠ 0 then
                  if shouldCheckCRLF st ∧ endWithCRNode st prevN ∧ startWithLFNode st nextN then
                    handleCRLFJoin st prevN nextN
                  else st
                else st
              else if nextN ≠ 0 then validateCRLFWithPrevNode st nextN
              else st
            computeBufferMetadata st
      | _, _ => st

/-- The chunked-deletion loop of `deleteText`. -/
def deleteTextChunked (chunkSize : Int) : Nat → PT → Int → Int → PT
  | 0, st, _, _ => st
  | fuel + 1, st, currentOffset, remaining =>
      if remaining > 0 then
        let deleteSize := min chunkSize remaining
        let st := delete_ st currentOffset deleteSize
        deleteTextChunked chunkSize fuel st currentOffset (remaining - deleteSize)
      else st

/-- `PieceTreeBase::deleteText` (piece_tree_base.cpp:1685): the public
delete.  Large deletions go through chunked `delete_` calls; small ones
duplicate `delete_`'s logic but repair CRLF joins with `fixCRLF`. -/
def deleteText (st : PT) (offset count0 : Int) : PT :=
  let st := { st with lastVisitedLine := (0, []) }
  if count0 ≤ 0 ∨ st.root = 0 then st
  else
    let maxLength := st.length
    if offset ≥ maxLength then st
    else
      let count := if offset + count0 > maxLength then maxLength - offset else count0
      let chunkSize := AverageBufferSize / 2
      if count > chunkSize ∧ count > maxLength / 10 then
        deleteTextChunked chunkSize (count / chunkSize + 2).toNat st offset count
      else
        let (st, startPosition) := nodeAt st offset
        let (st, endPosition) := nodeAt st (offset + count)
        match startPosition.node, endPosition.node with
        | some startNode, some endNode =>
            if startNode = endNode then
              let startSplitPosInBuffer := positionInBuffer st startNode startPosition.remainder
              let endSplitPosInBuffer := positionInBuffer st startNode endPosition.remainder
              if startPosition.nodeStartOffset = offset then
                if count = (nd st startNode).piece.length then
                  let next := nextNode st startNode
                  let st := rbDelete st startNode
                  let st := validateCRLFWithPrevNode st next
                  computeBufferMetadata st
                else
                  let st := deleteNodeHead st startNode endSplitPosInBuffer
                  let st := cacheValidate st offset
                  let st := validateCRLFWithPrevNode st startNode
                  computeBufferMetadata st
              else if startPosition.nodeStartOffset + (nd st startNode).piece.length =
                  offset + count then
                let st := deleteNodeTail st startNode startSplitPosInBuffer
                let st := validateCRLFWithNextNode st startNode
                computeBufferMetadata st
              else
                let st := shrinkNode st startNode startSplitPosInBuffer endSplitPosInBuffer
                computeBufferMetadata st
            else
              let startSplitPosInBuffer := positionInBuffer st startNode startPosition.remainder
              let st := deleteNodeTail st startNode startSplitPosInBuffer
              let st := cacheValidate st offset
              let startNodeEmpty := (nd st startNode).piece.length = 0
              let nodesToDel := if startNodeEmpty then [startNode] else []
              let endSplitPosInBuffer := positionInBuffer st endNode endPosition.remainder
              let st := deleteNodeHead st endNode endSplitPosInBuffer
              let endNodeEmpty := (nd st endNode).piece.length = 0
              let nodesToDel := nodesToDel ++ (if endNodeEmpty then [endNode] else [])
              let secondNode := nextNode st startNode
              let nodesToDel := collectMiddle st (FUEL st) secondNode endNode nodesToDel
              let prevN := if startNodeEmpty then prevNode st startNode else startNode
              let nextN := if endNodeEmpty then nextNode st endNode else endNode
              let st := deleteNodes st nodesToDel
              let st :=
                if prevN ≠ 0 ∧ nextN ≠ 0 then
                  if shouldCheckCRLF st ∧ endWithCRNode st prevN ∧ startWithLFNode st nextN then
                    fixCRLF st prevN nextN
                  else st
                else if nextN ≠ 0 then validateCRLFWithPrevNode st nextN
                else if prevN ≠ 0 then validateCRLFWithNextNode st prevN
                else st
              computeBufferMetadata st
        | _, _ => st

/-- The descent loop of `getOffsetAt` (piece_tree_base.cpp:131). -/
def getOffsetAtLoop (st : PT) (column : Int) : Nat → Nat → Int → Int → Int
  | 0, _, _, leftLen => leftLen + column
  | fuel + 1, x, lineNumber, leftLen =>
      if x ≠ 0 then
        if (nd st x).left ≠ 0 ∧ (nd st x).lf_left ≥ lineNumber then
          getOffsetAtLoop st column fuel (nd st x).left lineNumber leftLen
        else if (nd st x).lf_left + (nd st x).piece.lineFeedCnt ≥ lineNumber then
          let leftLen := leftLen + (nd st x).size_left
          let prevLineIndex := lineNumber - 1
          let prevAccumulatedValue :=
            getAccumulatedValue st x (prevLineIndex - (nd st x).lf_left)
          leftLen + prevAccumulatedValue + column
        else
          getOffsetAtLoop st column fuel (nd st x).right
            (lineNumber - ((nd st x).lf_left + (nd st x).piece.lineFeedCnt))
            (leftLen + (nd st x).size_left + (nd st x).piece.length)
      else leftLen + column

/-- `PieceTreeBase::getOffsetAt`. -/
def getOffsetAt (st : PT) (lineNumber column : Int) : Int :=
  if lineNumber ≤ 0 then column
  else getOffsetAtLoop st column (FUEL st) st.root lineNumber 0

/-- The descent loop of `getPositionAt` (piece_tree_base.cpp:167). -/
def getPositionAtLoop (st : PT) (originalOffset : Int) : Nat → Nat → Int → Int → Int × Int
  | 0, _, _, _ => (1, 1)
  | fuel + 1, x, offset, lfCnt =>
      if x ≠ 0 then
        if (nd st x).size_left ≠ 0 ∧ (nd st x).size_left ≥ offset then
          getPositionAtLoop st originalOffset fuel (nd st x).left offset lfCnt
        else if (nd st x).size_left + (nd st x).piece.length ≥ offset then
          let out := getIndexOf st x (offset - (nd st x).size_left)
          let lfCnt := lfCnt + (nd st x).lf_left + out.1
          if out.1 = 0 then
            let lineStartOffset := getOffsetAt st (lfCnt + 1) 1
            let column := originalOffset - lineStartOffset
            (lfCnt + 1, column + 1)
          else (lfCnt + 1, out.2 + 1)
        else
          let offset := offset - ((nd st x).size_left + (nd st x).piece.length)
          let lfCnt := lfCnt + (nd st x).lf_left + (nd st x).piece.lineFeedCnt
          if (nd st x).right = 0 then
            let lineStartOffset := getOffsetAt st (lfCnt + 1) 1
            let column := originalOffset - offset - lineStartOffset
            (lfCnt + 1, column + 1)
          else getPositionAtLoop st originalOffset fuel (nd st x).right offset lfCnt
      else (1, 1)

/-- `PieceTreeBase::getPositionAt`: 1-based `(line, column)`. -/
def getPositionAt (st : PT) (offset0 : Int) : Int × Int :=
  let offset := max 0 offset0
  getPositionAtLoop st offset (FUEL st) st.root offset 0

/-- The successor loop of `getValueInRange2`. -/
def gvir2Loop (st : PT) (endN : Nat) (endRemainder : Int) : Nat → Nat → Str → Str
  | 0, _, ret => ret
  | fuel + 1, x, ret =>
      if x ≠ 0 then
        let piece := (nd st x).piece
        let buffer := (buf st piece.bufferIndex).buffer
        let startOffset := offsetInBuffer st piece.bufferIndex piece.start
        if x = endN then
          ret ++ csubstr buffer startOffset (startOffset + endRemainder - startOffset)
        else
          gvir2Loop st endN endRemainder fuel (nextNode st x)
            (ret ++ csubstr buffer startOffset piece.length)
      else ret

/-- `PieceTreeBase::getValueInRange2` (piece_tree_base.cpp:257). -/
def getValueInRange2 (st : PT) (startPosition endPosition : NodePosition) : Str :=
  let sN := startPosition.node.getD 0
  let eN := endPosition.node.getD 0
  if sN = eN then
    let piece := (nd st sN).piece
    let buffer := (buf st piece.bufferIndex).buffer
    let startOffset := offsetInBuffer st piece.bufferIndex piece.start
    csubstr buffer (startOffset + startPosition.remainder)
      (endPosition.remainder - startPosition.remainder)
  else
    let piece := (nd st sN).piece
    let buffer := (buf st piece.bufferIndex).buffer
    let startOffset := offsetInBuffer st piece.bufferIndex piece.start
    let ret := csubstr buffer (startOffset + startPosition.remainder)
      (startOffset + piece.length - (startOffset + startPosition.remainder))
    gvir2Loop st eN endPosition.remainder (FUEL st) (nextNode st sN) ret

/-- Does `s` start with `pat`? -/
def strStartsWith : Str → Str → Bool
  | _, [] => true
  | [], _ :: _ => false
  | c :: s, p :: ps => c = p && strStartsWith s ps

/-- `std::string::find(pat, start)`: smallest match position `≥ start`,
`none` for `npos`. -/
def findSub (s pat : Str) (start : Nat) : Option Nat :=
  (List.range (s.length + 1)).find? fun i =>
    decide (start ≤ i) && strStartsWith (s.drop i) pat

/-- One `while ((pos = result.find(pat, pos)) != npos)` replace loop;
the returned position is `none` when the loop left `pos` at `npos`. -/
def replaceLoop (pat rep : Str) : Nat → Str → Nat → Str × Option Nat
  | 0, s, pos => (s, some pos)
  | fuel + 1, s, pos =>
      match findSub s pat pos with
      | some i =>
          replaceLoop pat rep fuel (s.take i ++ rep ++ s.drop (i + pat.length))
            (i + rep.length)
      | none => (s, none)

/-- Run a replace loop whose starting `pos` may already be `npos` (in
which case `find` immediately returns `npos` and the loop body never
runs). -/
def replaceFromPos (pat rep : Str) (fuel : Nat) (s : Str) (pos : Option Nat) :
    Str × Option Nat :=
  match pos with
  | none => (s, none)
  | some p => replaceLoop pat rep fuel s p

/-- The three sequential replace loops of `getValueInRange`
(piece_tree_base.cpp:219-231): note that `pos` is NOT reset between the
loops, exactly as in the source. -/
def eolReplaceSeq (eol value : Str) : Str :=
  let (s, pos) := replaceFromPos (str "\r\n") eol (value.length + 2) value (some 0)
  let (s, pos) := replaceFromPos (str "\r") eol (s.length + 2) s pos
  (replaceFromPos (str "\n") eol (s.length + 2) s pos).1

/-- `common::Range` with its normalizing constructor (range.h): swapped
endpoints are reordered. -/
structure CRange where
  startLineNumber : Int
  startColumn : Int
  endLineNumber : Int
  endColumn : Int
deriving DecidableEq, Repr

/-- The `Range` constructor. -/
def mkRange (a b c d : Int) : CRange :=
  if a > c ∨ (a = c ∧ b > d) then ⟨c, d, a, b⟩ else ⟨a, b, c, d⟩

/-- `PieceTreeBase::getValueInRange` (piece_tree_base.cpp:207). -/
def getValueInRange (st : PT) (range : CRange) (eol : Str := []) : Str :=
  if range.startLineNumber = range.endLineNumber ∧ range.startColumn = range.endColumn then []
  else
    let startPosition := nodeAt2 st range.startLineNumber range.startColumn
    let endPosition := nodeAt2 st range.endLineNumber range.endColumn
    let value := getValueInRange2 st startPosition endPosition
    if eol ≠ [] then
      if eol ≠ st.eol ∨ ¬st.eolNormalized then eolReplaceSeq eol value
      else if eol = st.eol ∧ st.eolNormalized then value
      else eolReplaceSeq eol value
    else value

/-- The successor loop of `getLineRawContent` (piece_tree_base.cpp:1057). -/
def glrcLoop (st : PT) (endOffset : Int) : Nat → Nat → Str → Str
  | 0, _, ret => ret
  | fuel + 1, x, ret =>
      if x ≠ 0 then
        let piece := (nd st x).piece
        let buffer := (buf st piece.bufferIndex).buffer
        if piece.lineFeedCnt > 0 then
          let accumulatedValue := getAccumulatedValue st x 0
          let startOffset := offsetInBuffer st piece.bufferIndex piece.start
          ret ++ csubstr buffer startOffset
            (startOffset + accumulatedValue - endOffset - startOffset)
        else
          let startOffset := offsetInBuffer st piece.bufferIndex piece.start
          glrcLoop st endOffset fuel (nextNode st x)
            (ret ++ csubstr buffer startOffset piece.length)
      else ret

/-- The cache-miss descent of `getLineRawContent`;
`Sum.inl` is an early return (with the cache entry recorded),
`Sum.inr (x, ret)` falls through to the successor loop. -/
def glrcDescend (st : PT) (endOffset originalLineNumber : Int) :
    Nat → Nat → Int → Int → (PT × Str) ⊕ (Nat × Str)
  | 0, x, _, _ => Sum.inr (x, [])
  | fuel + 1, x, lineNumber, nodeStartOffset =>
      if x ≠ 0 then
        if (nd st x).left ≠ 0 ∧ (nd st x).lf_left ≥ lineNumber - 1 then
          glrcDescend st endOffset originalLineNumber fuel (nd st x).left lineNumber
            nodeStartOffset
        else if (nd st x).lf_left + (nd st x).piece.lineFeedCnt > lineNumber - 1 then
          let prevAccumulatedValue :=
            getAccumulatedValue st x (lineNumber - (nd st x).lf_left - 2)
          let accumulatedValue :=
            getAccumulatedValue st x (lineNumber - (nd st x).lf_left - 1)
          let piece := (nd st x).piece
          let buffer := (buf st piece.bufferIndex).buffer
          let startOffset := offsetInBuffer st piece.bufferIndex piece.start
          let nodeStartOffset := nodeStartOffset + (nd st x).size_left
          let st2 := cacheSet st
            ⟨x, nodeStartOffset, originalLineNumber - (lineNumber - 1 - (nd st x).lf_left)⟩
          Sum.inl (st2, csubstr buffer (startOffset + prevAccumulatedValue)
            (startOffset + accumulatedValue - endOffset -
              (startOffset + prevAccumulatedValue)))
        else if (nd st x).lf_left + (nd st x).piece.lineFeedCnt = lineNumber - 1 then
          let prevAccumulatedValue :=
            getAccumulatedValue st x (lineNumber - (nd st x).lf_left - 2)
          let piece := (nd st x).piece
          let buffer := (buf st piece.bufferIndex).buffer
          let startOffset := offsetInBuffer st piece.bufferIndex piece.start
          Sum.inr (x, csubstr buffer (startOffset + prevAccumulatedValue)
            (startOffset + piece.length - (startOffset + prevAccumulatedValue)))
        else
          glrcDescend st endOffset originalLineNumber fuel (nd st x).right
            (lineNumber - ((nd st x).lf_left + (nd st x).piece.lineFeedCnt))
            (nodeStartOffset + (nd st x).size_left + (nd st x).piece.length)
      else Sum.inr (x, [])

/-- `PieceTreeBase::getLineRawContent` (piece_tree_base.cpp:1003). -/
def getLineRawContent (st : PT) (lineNumber endOffset : Int) : PT × Str :=
  match cacheGet2 st lineNumber with
  | some cache =>
      let x := cache.node
      let prevAccumulatedValue :=
        getAccumulatedValue st x (lineNumber - cache.nodeStartLineNumber - 1)
      let piece := (nd st x).piece
      let buffer := (buf st piece.bufferIndex).buffer
      let startOffset := offsetInBuffer st piece.bufferIndex piece.start
      if cache.nodeStartLineNumber + piece.lineFeedCnt = lineNumber then
        let ret := csubstr buffer (startOffset + prevAccumulatedValue)
          (startOffset + piece.length - (startOffset + prevAccumulatedValue))
        (st, glrcLoop st endOffset (FUEL st) (nextNode st x) ret)
      else
        let accumulatedValue :=
          getAccumulatedValue st x (lineNumber - cache.nodeStartLineNumber)
        (st, csubstr buffer (startOffset + prevAccumulatedValue)
          (startOffset + accumulatedValue - endOffset -
            (startOffset + prevAccumulatedValue)))
  | none =>
      match glrcDescend st endOffset lineNumber (FUEL st) st.root lineNumber 0 with
      | Sum.inl (st, ret) => (st, ret)
      | Sum.inr (x, ret) => (st, glrcLoop st endOffset (FUEL st) (nextNode st x) ret)

/-- The trailing-terminator strip of the un-normalized branch of
`getLineContent`. -/
def stripTrailingTerm (content : Str) : Str :=
  if content = [] then content
  else if content.length ≥ 2 ∧ content.getD (content.length - 2) ' ' = '\r' ∧
      content.getD (content.length - 1) ' ' = '\n' then
    content.take (content.length - 2)
  else if content.getLastD ' ' = '\n' ∨ content.getLastD ' ' = '\r' then
    content.take (content.length - 1)
  else content

/-- `PieceTreeBase::getLineContent` (piece_tree_base.cpp:320).  `none`
models the `std::out_of_range` throw; the function otherwise returns the
bytes AND the mutated state (last-visited-line memo, search cache). -/
def getLineContent (st : PT) (lineNumber : Int) : PT × Option Str :=
  if lineNumber < 0 ∨ lineNumber ≥ st.lineCnt then (st, none)
  else if lineNumber = st.lastVisitedLine.1 then (st, some st.lastVisitedLine.2)
  else
    let st := { st with lastVisitedLine := (lineNumber, st.lastVisitedLine.2) }
    if st.root = 0 then
      ({ st with lastVisitedLine := (lineNumber, []) }, some [])
    else
      let adjustedLineNumber := lineNumber + 1
      if adjustedLineNumber = st.lineCnt then
        let pr := getLineRawContent st adjustedLineNumber 0
        ({ pr.1 with lastVisitedLine := (lineNumber, pr.2) }, some pr.2)
      else if st.eolNormalized then
        let pr := getLineRawContent st adjustedLineNumber st.eolLength
        ({ pr.1 with lastVisitedLine := (lineNumber, pr.2) }, some pr.2)
      else
        let pr := getLineRawContent st adjustedLineNumber 0
        let content := stripTrailingTerm pr.2
        ({ pr.1 with lastVisitedLine := (lineNumber, content) }, some content)

/-- `PieceTreeBase::getLineLength` (piece_tree_base.cpp:385).  The source
contains no bounds check and no throw: it is a total function of the
state. -/
def getLineLength (st : PT) (lineNumber : Int) : Int :=
  if lineNumber = st.lineCnt then
    let startOffset := getOffsetAt st lineNumber 1
    st.length - startOffset
  else
    getOffsetAt st (lineNumber + 1) 1 - getOffsetAt st lineNumber 1 - st.eolLength

/-- `getLineLength` wrapped in the raise/return-normally view used by the
error-handling claim: the source has no `throw` statement anywhere on its
paths (`getOffsetAt`, `getLength` and arithmetic only), so every call
returns normally. -/
def getLineLengthE (st : PT) (lineNumber : Int) : Option Int :=
  some (getLineLength st lineNumber)

/-- One callback step of the `normalizeEOL` chunk assembler. -/
def normalizeStep (minV maxV : Int) (acc : Str × Int × List StringBuffer) (s : Str) :
    Str × Int × List StringBuffer :=
  let (tempChunk, tempChunkLen, chunks) := acc
  if tempChunkLen ≤ minV ∨ tempChunkLen + (s.length : Int) < maxV then
    (tempChunk ++ s, tempChunkLen + (s.length : Int), chunks)
  else
    let text := tempChunk.map fun c => if c = '\r' then '\n' else c
    (s, (s.length : Int), chunks ++ [⟨text, createLineStartsFast text⟩])

/-- The `iterate` traversal of `normalizeEOL` (the callback also fires on
sentinel leaves, with empty content, as `iterate` does). -/
def normalizeIter (st : PT) (minV maxV : Int) :
    Nat → Nat → Str × Int × List StringBuffer → Str × Int × List StringBuffer
  | 0, _, acc => acc
  | fuel + 1, i, acc =>
      if i = 0 then normalizeStep minV maxV acc []
      else
        let acc := normalizeIter st minV maxV fuel (nd st i).left acc
        let acc := normalizeStep minV maxV acc (getNodeContent st i)
        normalizeIter st minV maxV fuel (nd st i).right acc

/-- `PieceTreeBase::normalizeEOL` (piece_tree_base.cpp:56): re-chunk the
document, REPLACING EVERY `'\r'` BYTE WITH `'\n'`
(`std::replace(text.begin(), text.end(), '\r', '\n')`), and rebuild. -/
def normalizeEOL (st : PT) (eol : Str) : PT :=
  let averageBufferSize := AverageBufferSize
  let minV := averageBufferSize - averageBufferSize / 3
  let maxV := minV * 2
  let (tempChunk, tempChunkLen, chunks) :=
    normalizeIter st minV maxV (FUEL st) st.root ([], 0, [])
  let chunks :=
    if tempChunkLen > 0 then
      let text := tempChunk.map fun c => if c = '\r' then '\n' else c
      chunks ++ [⟨text, createLineStartsFast text⟩]
    else chunks
  create st chunks eol true

/-- `PieceTreeBase::setEOL` (piece_tree_base.cpp:96). -/
def setEOL (st : PT) (newEOL : Str) : PT :=
  let st := { st with eol := newEOL, eolLength := (newEOL.length : Int) }
  normalizeEOL st newEOL

/-- A `PieceTreeSnapshot`: the captured `Piece*` list is modelled as
pairs of (heap identity, piece value) — the pointee is immutable while
allocated, so the captured value is what a live pointer reads. -/
structure PTSnapshot where
  pieces : List (Nat × Piece)
  index : Int
  bom : Str
deriving Repr

/-- The `iterate` collection of the snapshot constructor. -/
def snapshotCollect (st : PT) : Nat → Nat → List (Nat × Piece) → List (Nat × Piece)
  | 0, _, acc => acc
  | fuel + 1, i, acc =>
      if i = 0 then acc
      else
        let acc := snapshotCollect st fuel (nd st i).left acc
        let acc := acc ++ [((nd st i).pieceId, (nd st i).piece)]
        snapshotCollect st fuel (nd st i).right acc

/-- `PieceTreeSnapshot::PieceTreeSnapshot` (piece_tree_snapshot.cpp:5). -/
def createSnapshot (st : PT) (bom : Str) : PTSnapshot :=
  ⟨if st.root ≠ 0 then snapshotCollect st (FUEL st) st.root [] else [], 0, bom⟩

/-- `PieceTreeSnapshot::read` (piece_tree_snapshot.cpp:18), evaluated
against the CURRENT tree state.  A read through a `Piece*` whose pointee
the tree has `delete`d is undefined behavior in the C++ program; it is
modelled as `none`. -/
def snapshotRead (st : PT) (s : PTSnapshot) : PTSnapshot × Option Str :=
  if s.pieces = [] then
    if s.index = 0 then ({ s with index := s.index + 1 }, some s.bom)
    else (s, some [])
  else if s.index > (s.pieces.length : Int) - 1 then (s, some [])
  else
    let (pid, piece) := s.pieces.getD s.index.toNat (0, dummyPiece)
    let s := { s with index := s.index + 1 }
    if pid ∈ st.freedPieces then (s, none)
    else if s.index - 1 = 0 then (s, some (s.bom ++ getPieceContent st piece))
    else (s, some (getPieceContent st piece))

/-- `DefaultEndOfLine` (piece_tree_builder.h). -/
inductive DefaultEndOfLine where
  | LF
  | CRLF
  | CR
deriving DecidableEq, Repr

/-- `PieceTreeTextBufferFactory::getEOL` (piece_tree_builder.cpp:24).
The tallied counts are non-negative by construction, so they are carried
as `Nat` (C++ `/` on non-negative `int32_t` is the same floor
division). -/
def factoryGetEOL (cr lf crlf : Nat) (defaultEOL : DefaultEndOfLine) : Str :=
  let totalEOLCount := cr + lf + crlf
  let totalCRCount := cr + crlf
  if totalEOLCount = 0 then
    if defaultEOL = DefaultEndOfLine.LF then str "\n" else str "\r\n"
  else if totalCRCount > totalEOLCount / 2 then str "\r\n"
  else str "\n"

/-! ## Specification-side measures and concrete states

`inorderLengthSum` is the specification's "sum of piece lengths over the
in-order nodes of a subtree"; `sizeMeta` is the specification's
`size(x) = x.size_left + x.piece.length + size(x.right)`.  The example
states below are built exclusively through the embedded public
operations. -/

/-- Sum of `piece.length` over the in-order nodes of the subtree at `i`
(the specification's left-subtree measure for `size_left`). -/
def inorderLengthSum (st : PT) : Nat → Nat → Int
  | 0, _ => 0
  | fuel + 1, i =>
      if i = 0 then 0
      else
        inorderLengthSum st fuel (nd st i).left + (nd st i).piece.length +
          inorderLengthSum st fuel (nd st i).right

/-- The specification's `size(x) = x.size_left + x.piece.length +
size(x.right)` (sentinel → 0). -/
def sizeMeta (st : PT) : Nat → Nat → Int
  | 0, _ => 0
  | fuel + 1, i =>
      if i = 0 then 0
      else (nd st i).size_left + (nd st i).piece.length + sizeMeta st fuel (nd st i).right

/-- An empty document, `create({}, "\n", false)`. -/
def exEmpty : PT := create initialPT [] (str "\n") false

/-- `insert(0, "ab")` on the empty document: document `"ab"`. -/
def exC1a : PT := insert exEmpty 0 (str "ab")

/-- then `insert(2, "cd")`: document `"abcd"` via the change-buffer
append fast path. -/
def exC1b : PT := insert exC1a 2 (str "cd")

/-- then `insert(1, "Z")`: document `"aZbcd"`. -/
def exC1pre : PT := insert exC1b 1 (str "Z")

/-- `"abcd"` then the public `deleteText(1, 2)`: document `"ad"`. -/
def exC2pre : PT := deleteText exC1b 1 2

/-- The snapshot taken on document `"ab"` (empty BOM). -/
def exSnap : PTSnapshot := createSnapshot exC1a []

/-- A document built from the single original chunk `"abcde"`. -/
def exABCDE : PT := create initialPT [mkChunk (str "abcde")] (str "\n") false

/-- `deleteText(3, 2)` on `"abcde"`: document `"abc"`. -/
def exC7 : PT := deleteText exABCDE 3 2

/-- A document built from the single original chunk `"ab"`. -/
def exAB : PT := create initialPT [mkChunk (str "ab")] (str "\n") false

/-- A two-line document `"A\nB"` (not EOL-normalized). -/
def exANLB : PT := create initialPT [mkChunk (str "A\nB")] (str "\n") false

/-- A document `"a\r\nb"` with one CRLF terminator. -/
def exCRLF : PT := create initialPT [mkChunk (str "a\r\nb")] (str "\n") false

/-- A document `"a\nb"` (not EOL-normalized). -/
def exANB : PT := create initialPT [mkChunk (str "a\nb")] (str "\n") false

/-! ## Claims -/

/-- C1.  REFUTED (code bug): `insert` does not always leave the document
equal to `prefix(o) + v + suffix(o)`.  After the public-operation
sequence `insert(0,"ab")`, `insert(2,"cd")`, `insert(1,"Z")` the document
is `"aZbcd"`, but `insert(3,"Q")` then produces `"aZbcQd"` instead of
`"aZbQcd"`: the append fast path had corrupted `size_left` (the member
`updateTreeMetadata` adds its delta to the node itself and to every
ancestor unconditionally), so `nodeAt(3)` locates the wrong split
point. -/
theorem insert_violates_prefix_suffix_contract :
    getValue exC1pre = str "aZbcd" ∧ exC1pre.length = 5 ∧
    getValue (insert exC1pre 3 (str "Q")) = str "aZbcQd" ∧
    str "aZbcQd" ≠
      (getValue exC1pre).take 3 ++ str "Q" ++ (getValue exC1pre).drop 3 := by
  decide

/-- C2.  REFUTED (code bug): the public delete does not always leave the
document equal to `prefix(o) + suffix(o + c)`.  On the document `"ad"`
(reached by `insert(0,"ab")`, `insert(2,"cd")`, `deleteText(1,2)`), the
in-range call `deleteText(1, 1)` is silently a no-op — the corrupted
`size_left` makes the descent for the range end fall off the tree and
`deleteText` returns without deleting — so the document stays `"ad"`
instead of becoming `"a"`. -/
theorem deleteText_violates_delete_contract :
    getValue exC2pre = str "ad" ∧ exC2pre.length = 2 ∧
    getValue (deleteText exC2pre 1 1) = str "ad" ∧
    str "ad" ≠ (getValue exC2pre).take 1 ++ (getValue exC2pre).drop 2 := by
  decide

/-- C3.  REFUTED (code bug): a snapshot taken on `"ab"` reads back
`"ab"` while no edit has happened, but after `insert(2, "cd")` (the
change-buffer fast path, which executes `delete node->piece`) the
snapshot's captured `Piece*` is dangling, so `read()` dereferences freed
memory (modelled as `none`) instead of returning the creation-time
content. -/
theorem snapshot_read_after_edit_dangles :
    (snapshotRead exC1a exSnap).2 = some (str "ab") ∧
    (snapshotRead (insert exC1a 2 (str "cd")) exSnap).2 = none := by
  decide

/-- C4.  REFUTED (code bug): `setEOL("\n")` on the document `"a\r\nb"`
produces `"a\n\nb"` — `normalizeEOL` replaces every `'\r'` BYTE with
`'\n'` (`std::replace`), so the single CRLF terminator becomes two LF
terminators: the line count grows from 2 to 3 and the document content
is not preserved (the claim demands `"a\nb"`). -/
theorem setEOL_corrupts_crlf_document :
    getValue exCRLF = str "a\r\nb" ∧ exCRLF.lineCnt = 2 ∧
    getValue (setEOL exCRLF (str "\n")) = str "a\n\nb" ∧
    (setEOL exCRLF (str "\n")).lineCnt = 3 ∧
    str "a\n\nb" ≠ str "a\nb" := by
  decide

/-- C5.  COUNTEREXAMPLE: with census `(cr, lf, crlf) = (1, 0, 0)` the
factory returns `"\r\n"`, although the CRLF count (0) does not exceed
half of the total terminator count (1), so the claim demands `"\n"`.
The code tests `cr + crlf > total / 2`, not `crlf > total / 2`. -/
theorem factoryGetEOL_crlf_majority_refuted :
    factoryGetEOL 1 0 0 DefaultEndOfLine.LF = str "\r\n" ∧
    ¬(2 * 0 > 1 + 0 + 0) ∧ str "\r\n" ≠ str "\n" := by
  decide

/-- C5 (amended).  With no terminators at all the factory returns `"\n"`
when the caller's default is `LF` and `"\r\n"` for any other default (a
`CR` default is NOT honored: the zero-terminator branch is
`defaultEOL == LF ? "\n" : "\r\n"`).  With terminators present it
chooses `"\r\n"` exactly when the terminators containing a carriage
return (`cr + crlf`) outnumber the lone LFs — that is the content of the
source's `cr + crlf > (cr + lf + crlf) / 2` test — and `"\n"`
otherwise. -/
theorem factoryGetEOL_chooses_crlf_iff_cr_terminators_dominate
    (cr lf crlf : Nat) (d : DefaultEndOfLine) :
    (factoryGetEOL cr lf crlf d = str "\r\n" ↔
      (cr + lf + crlf = 0 ∧ d ≠ DefaultEndOfLine.LF) ∨
      (cr + lf + crlf ≠ 0 ∧ lf < cr + crlf)) ∧
    (factoryGetEOL cr lf crlf d = str "\n" ↔
      (cr + lf + crlf = 0 ∧ d = DefaultEndOfLine.LF) ∨
      (cr + lf + crlf ≠ 0 ∧ ¬lf < cr + crlf)) := by
  simp only [factoryGetEOL]
  split_ifs with h1 h2 h3
  · exact ⟨iff_of_false (by decide) (by simp [h1, h2]),
      iff_of_true rfl (Or.inl ⟨h1, h2⟩)⟩
  · exact ⟨iff_of_true rfl (Or.inl ⟨h1, h2⟩),
      iff_of_false (by decide) (by simp [h1, h2])⟩
  · refine ⟨iff_of_true rfl (Or.inr ⟨h1, by omega⟩), iff_of_false (by decide) ?_⟩
    rintro (⟨hz, _⟩ | ⟨_, hge⟩)
    · exact h1 hz
    · omega
  · refine ⟨iff_of_false (by decide) ?_, iff_of_true rfl (Or.inr ⟨h1, by omega⟩)⟩
    rintro (⟨hz, _⟩ | ⟨_, hlt⟩)
    · exact h1 hz
    · omega

/-- C6.  REFUTED (code bug): on the un-normalized document `"a\nb"` with
active EOL `"\n"`, requesting the whole range with EOL `"\r\n"` returns
`"a\nb"` unchanged — the replacement loops for lone `"\r"` and `"\n"`
restart from the `npos` left behind by the `"\r\n"` loop, so lone
terminators are never rewritten (the claim demands `"a\r\nb"`). -/
theorem getValueInRange_lone_terminators_not_rewritten :
    getValue exANB = str "a\nb" ∧ exANB.eol = str "\n" ∧
    exANB.eolNormalized = false ∧
    getValueInRange exANB (mkRange 0 0 1 1) = str "a\nb" ∧
    getValueInRange exANB (mkRange 0 0 1 1) (str "\r\n") = str "a\nb" ∧
    str "a\nb" ≠ str "a\r\nb" := by
  decide

/-- C7.  REFUTED (code bug): after `create("abcde")` and the public
operation `deleteText(3, 2)`, the root has `size_left = -2` although its
left subtree is empty (in-order length sum 0), and the specification's
`size(root)` evaluates to 1 while `length()` is 3.  The member
`updateTreeMetadata` applies the delta to the node itself and every
ancestor instead of only to left-ancestors. -/
theorem size_left_invariant_violated :
    getValue exC7 = str "abc" ∧
    (nd exC7 exC7.root).size_left = -2 ∧
    inorderLengthSum exC7 (FUEL exC7) (nd exC7 exC7.root).left = 0 ∧
    sizeMeta exC7 (FUEL exC7) exC7.root = 1 ∧
    exC7.length = 3 := by
  decide

/-- C8.  REFUTED (code bug): on the one-line document `"ab"`, the valid
1-based pair `(1, 1)` gives `offsetAt(1, 1) = 3` and
`positionAt(3) = (1, 0) ≠ (1, 1)`: `getOffsetAt` treats its line-number
argument as 0-based while `getPositionAt` produces 1-based lines, so the
round-trip law fails. -/
theorem positionAt_offsetAt_roundtrip_refuted :
    getValue exAB = str "ab" ∧ exAB.lineCnt = 1 ∧
    getOffsetAt exAB 1 1 = 3 ∧
    getPositionAt exAB (getOffsetAt exAB 1 1) = (1, 0) ∧
    ((1 : Int), (0 : Int)) ≠ ((1 : Int), (1 : Int)) := by
  decide

/-- C9.  COUNTEREXAMPLE: on the one-line document `"ab"`
(`lineCount = 1`), the out-of-bounds call `getLineLength(5)` returns
normally (value `-1`) — `getLineLength` contains no bounds check and no
throw — although the claim says it raises a bounds error. -/
theorem getLineLength_out_of_bounds_returns_normally :
    exAB.lineCnt = 1 ∧ (5 : Int) ≥ exAB.lineCnt ∧
    getLineLengthE exAB 5 = some (-1) := by
  decide

/-- C9 (amended).  `getLineContent` raises exactly when the requested
line number is negative or at least the line count, and returns normally
otherwise; `getLineLength` never raises (see the counterexample). -/
theorem getLineContent_raises_iff_out_of_bounds (st : PT) (l : Int) :
    (getLineContent st l).2 = none ↔ l < 0 ∨ l ≥ st.lineCnt := by
  by_cases h1 : l < 0 ∨ l ≥ st.lineCnt
  · simp [getLineContent, h1]
  · simp only [getLineContent, if_neg h1]
    split_ifs <;> simp [h1]

/-- C10.  REFUTED (code bug): on the fixed document `"A\nB"`,
`getLineContent(0)` returns `""` on a fresh state (the last-visited-line
memo is initialized to `(0, "")` and line 0 is a valid line number, so
the stale memo is served), but returns `"A"` after an interleaved
`getLineContent(1)` — the same query on the same document yields
different bytes depending on query history. -/
theorem getLineContent_depends_on_query_history :
    (getLineContent exANLB 0).2 = some [] ∧
    getValue ((getLineContent exANLB 1).1) = getValue exANLB ∧
    (getLineContent ((getLineContent exANLB 1).1) 0).2 = some (str "A") ∧
    ([] : Str) ≠ str "A" := by
  decide

end PieceTree
